import Mathlib

/-!
The go-switch library: a FreeSWITCH event socket client and server.

A shallow embedding of the protocol engine of `fsswitch` (files `event.go`,
`eventsocket.go`, `inboundsocket.go`, `outboundsocket.go`) together with
theorems about message routing, request framing and connection establishment.

Conventions of the embedding.

* A Go `string` is a sequence of bytes.  It is represented by `Str = List Char`,
  one character per byte (the character whose code point is the byte), so that
  Go's `len` is `List.length` and slicing is `take`/`drop`.
* A Go `map[string]string` is an association list with pairwise distinct keys;
  `mapSet`, `mapGet` and `mapDelete` are assignment, lookup and `delete`.
* A Go `error` value is `Option Error`, `none` being `nil`.
* The bytes a peer sends on a connection are a finite `Str`; reading past its
  end is end-of-file.
* What the reader goroutine sends on the channels of an `EventSocket` is the
  list of its publications, in order; a goroutine receiving from some of the
  channels takes the first publication it can get.
-/

namespace FsSwitch

/-- Go strings: byte sequences, one character per byte. -/
abbrev Str := List Char

/-- Error values that occur in the library and in the standard-library calls it makes. -/
inductive Error where
  | eof                 -- io.EOF
  | unexpectedEOF       -- io.ErrUnexpectedEOF
  | protocolError       -- textproto.ProtocolError (malformed MIME header)
  | atoiInvalid          -- strconv.ErrSyntax
  | atoiRange           -- strconv.ErrRange
  | jsonError           -- json.SyntaxError and json.UnmarshalTypeError
  | notConnected        -- errors.New("Not connected to FS")
  | disconnected        -- errors.New("Disconnected")
  | missingAuthRequest  -- errMissingAuthRequest
  | invalidPassword     -- errInvalidPassword
  | invalidCommand      -- errInvalidCommand
  | filterFailed        -- errFilterFailed
  deriving DecidableEq, Repr

/-! ## Go maps -/

/-- Go `map[string]string`. -/
abbrev GoMap := List (Str × Str)

/-- Lookup with presence: the `v, ok := m[k]` form. -/
def mapGet? : GoMap → Str → Option Str
  | [], _ => none
  | (k', v) :: m, k => if k' = k then some v else mapGet? m k

/-- Lookup `m[k]`: the zero value `""` when the key is absent. -/
def mapGet (m : GoMap) (k : Str) : Str := (mapGet? m k).getD []

/-- Assignment `m[k] = v`. -/
def mapSet : GoMap → Str → Str → GoMap
  | [], k, v => [(k, v)]
  | (k', v') :: m, k, v => if k' = k then (k, v) :: m else (k', v') :: mapSet m k v

/-- The builtin `delete(m, k)`. -/
def mapDelete : GoMap → Str → GoMap
  | [], _ => []
  | (k', v) :: m, k => if k' = k then mapDelete m k else (k', v) :: mapDelete m k

/-! ## Standard library: strconv, strings, fmt -/

/-- Value of a decimal digit. -/
def digitVal (c : Char) : Nat := c.toNat - 48

/-- Whether the byte is a decimal digit. -/
def isDigit (c : Char) : Bool := decide (48 ≤ c.toNat) && decide (c.toNat ≤ 57)

/-- Value of a string of decimal digits. -/
def digitsVal (s : Str) : Nat := s.foldl (fun n c => n * 10 + digitVal c) 0

/-- Model of `strconv.Atoi` for a 64-bit `int`: an optional sign followed by one or
more decimal digits; `ErrSyntax` otherwise, `ErrRange` outside the `int` range. -/
def Atoi (s : Str) : Except Error Int :=
  let neg := s.head? = some '-'
  let ds := if s.head? = some '-' ∨ s.head? = some '+' then s.tail else s
  if ds = [] ∨ ¬ ds.all isDigit then .error .atoiInvalid
  else
    let n := digitsVal ds
    if neg then (if n ≤ 2 ^ 63 then .ok (-(n : Int)) else .error .atoiRange)
    else (if n < 2 ^ 63 then .ok (n : Int) else .error .atoiRange)

/-- The verb `%d` of `fmt` applied to an `int`. -/
def fmtInt (n : Int) : Str :=
  if n < 0 then '-' :: Nat.toDigits 10 n.natAbs else Nat.toDigits 10 n.toNat

/-- Model of `strings.Contains`. -/
def stringsContains : Str → Str → Bool
  | [], sub => sub.isEmpty
  | c :: s, sub => sub.isPrefixOf (c :: s) || stringsContains s sub

/-! ## Standard library: net/url -/

/-- Whether the byte is a hexadecimal digit (`ishex`). -/
def ishex (c : Char) : Bool :=
  isDigit c || (decide (97 ≤ c.toNat) && decide (c.toNat ≤ 102))
    || (decide (65 ≤ c.toNat) && decide (c.toNat ≤ 70))

/-- Value of a hexadecimal digit (`unhex`). -/
def unhex (c : Char) : Nat :=
  if isDigit c then c.toNat - 48
  else if decide (97 ≤ c.toNat) && decide (c.toNat ≤ 102) then c.toNat - 97 + 10
  else if decide (65 ≤ c.toNat) && decide (c.toNat ≤ 70) then c.toNat - 65 + 10
  else 0

/-- Model of `url.QueryUnescape`: `%XX` becomes the byte `XX`, `+` becomes a space;
`none` (an `EscapeError`) when a `%` is not followed by two hexadecimal digits. -/
def QueryUnescape : Str → Option Str
  | [] => some []
  | c :: s =>
    if c = '%' then
      match s with
      | a :: b :: rest =>
        if ishex a && ishex b then
          (QueryUnescape rest).map (fun t => Char.ofNat (unhex a * 16 + unhex b) :: t)
        else none
      | _ => none
    else if c = '+' then (QueryUnescape s).map (fun t => ' ' :: t)
    else (QueryUnescape s).map (fun t => c :: t)

/-! ## Standard library: bufio, io, net/textproto -/

/-- Space or horizontal tab. -/
def isSpaceTab (c : Char) : Bool := c = ' ' || c = '\t'

/-- The helper `trim` of textproto: removes leading and trailing spaces and tabs. -/
def trim (s : Str) : Str :=
  ((s.dropWhile isSpaceTab).reverse.dropWhile isSpaceTab).reverse

/-- Splits at the first line feed: the bytes before it and, when there is one,
the bytes after it. -/
def splitLF : Str → Str × Option Str
  | [] => ([], none)
  | c :: s => if c = '\n' then ([], some s) else ((splitLF s).1.cons c, (splitLF s).2)

/-- Removes one trailing carriage return. -/
def dropCR (l : Str) : Str := if l.getLast? = some '\r' then l.dropLast else l

/-- Model of `bufio.Reader.ReadLine` as used by textproto: the next line without its
`\n` or `\r\n`, and the remaining input; `none` (`io.EOF`) when no input is left.  A
last line that lacks a line feed is returned as it stands. -/
def readLine (s : Str) : Option (Str × Str) :=
  if s = [] then none
  else
    match splitLF s with
    | (l, some r) => some (dropCR l, r)
    | (l, none) => some (l, [])

/-- Model of `io.ReadFull` on the buffered reader: exactly `n` bytes and the remaining
input, `io.EOF` when nothing could be read, `io.ErrUnexpectedEOF` when fewer than `n`
bytes were left. -/
def ReadFull (n : Nat) (s : Str) : Except Error (Str × Str) :=
  if n ≤ s.length then .ok (s.take n, s.drop n)
  else if s = [] then .error .eof
  else .error .unexpectedEOF

/-- The bytes allowed in a header field name (`validHeaderFieldByte`): the token
characters of RFC 7230. -/
def validHeaderFieldByte (c : Char) : Bool :=
  c.isAlphanum || "!#$%&*+-.^_|~".toList.contains c || c = Char.ofNat 39 || c = Char.ofNat 96

/-- The bytes allowed in a header field value (`validHeaderValueByte`): everything
except the control characters other than tab. -/
def validHeaderValueByte (c : Char) : Bool :=
  c = '\t' || (decide (32 ≤ c.toNat) && decide (c.toNat ≠ 127))

/-- The canonicalisation loop: the first letter and every letter that follows a hyphen
are upper-cased, all other letters lower-cased. -/
def canonLoop : Bool → Str → Str
  | _, [] => []
  | upper, c :: s =>
    let c' := if upper then c.toUpper else c.toLower
    c' :: canonLoop (c' = '-') s

/-- Model of `textproto.CanonicalMIMEHeaderKey`: a key made of token characters is put
in canonical form, any other key is returned unchanged. -/
def CanonicalMIMEHeaderKey (k : Str) : Str :=
  if k.all validHeaderFieldByte then canonLoop true k else k

/-- The internal `canonicalMIMEHeaderKey` used while reading a header: as the public
function, except that a key with a byte that is neither a token character nor a
space is refused (`none`). -/
def canonicalKeyOnRead (k : Str) : Option Str :=
  if k.all (fun c => validHeaderFieldByte c || c = ' ') then some (CanonicalMIMEHeaderKey k)
  else none

/-- Go `textproto.MIMEHeader`, a `map[string][]string`: every key with the first of
its values and the further ones. -/
abbrev MIMEHeader := List (Str × Str × List Str)

/-- The statement `m[key] = append(m[key], value)`. -/
def mimeAdd : MIMEHeader → Str → Str → MIMEHeader
  | [], k, v => [(k, v, [])]
  | (k', v', vs) :: m, k, v =>
    if k' = k then (k', v', vs ++ [v]) :: m else (k', v', vs) :: mimeAdd m k v

/-- The values stored under a key, when there are any. -/
def mimeLookup : MIMEHeader → Str → Option (Str × List Str)
  | [], _ => none
  | (k', v) :: m, k => if k' = k then some v else mimeLookup m k

/-- Model of `MIMEHeader.Get`: the first value stored under the canonical form of the
key, `""` when there is none. -/
def MIMEHeader.Get (h : MIMEHeader) (key : Str) : Str :=
  match mimeLookup h (CanonicalMIMEHeaderKey key) with
  | some (v, _) => v
  | none => []

/-- The continuation lines of a header line (`readContinuedLineSlice`): as long as the
next line starts with a space or a tab, a single space and the trimmed line are
appended. -/
def readContinuation : Nat → Str → Str → Str × Str
  | 0, buf, s => (buf, s)
  | fuel + 1, buf, s =>
    match s with
    | [] => (buf, s)
    | c :: _ =>
      if isSpaceTab c then
        match readLine (s.dropWhile isSpaceTab) with
        | none => (buf ++ [' '], [])
        | some (line, rest) => readContinuation fuel (buf ++ ' ' :: trim line) rest
      else (buf, s)

/-- The loop of `ReadMIMEHeader`: the header read so far, the error if any, and the
input that remains. -/
def readMIMEHeaderLoop : Nat → MIMEHeader → Str → MIMEHeader × Option Error × Str
  | 0, m, s => (m, some .eof, s)
  | fuel + 1, m, s =>
    match readLine s with
    | none => (m, some .eof, [])
    | some (line, rest) =>
      if line = [] then (m, none, rest)
      else if ¬ line.contains ':' then (m, some .protocolError, rest)
      else
        let kv := readContinuation rest.length (trim line) rest
        let k := kv.1.takeWhile (fun c => c ≠ ':')
        let v := (kv.1.dropWhile (fun c => c ≠ ':')).drop 1
        match canonicalKeyOnRead k with
        | none => (m, some .protocolError, kv.2)
        | some key =>
          if ¬ v.all validHeaderValueByte then (m, some .protocolError, kv.2)
          else if key = [] then readMIMEHeaderLoop fuel m kv.2
          else readMIMEHeaderLoop fuel (mimeAdd m key (v.dropWhile isSpaceTab)) kv.2

/-- Model of `textproto.Reader.ReadMIMEHeader`: reads `Name: value` lines up to the
first empty line.  The returned map has the canonical form of each name as key and
the values in the order read.  A first line that starts with a space or tab, a line
without colon, an invalid name or value, and the end of the input before the empty
line are errors. -/
def ReadMIMEHeader (s : Str) : MIMEHeader × Option Error × Str :=
  match s with
  | c :: _ =>
    if isSpaceTab c then ([], some .protocolError, ((readLine s).map Prod.snd).getD [])
    else readMIMEHeaderLoop (s.length + 1) [] s
  | [] => readMIMEHeaderLoop (s.length + 1) [] s

/-! ## Standard library: encoding/json -/

/-- JSON white space. -/
def isJsonSpace (c : Char) : Bool := c = ' ' || c = '\t' || c = '\n' || c = '\r'

/-- UTF-8 encoding of a code point (`utf8.EncodeRune`), as bytes. -/
def utf8Encode (r : Nat) : Str :=
  if r < 128 then [Char.ofNat r]
  else if r < 2048 then [Char.ofNat (192 + r / 64), Char.ofNat (128 + r % 64)]
  else if r < 65536 then
    [Char.ofNat (224 + r / 4096), Char.ofNat (128 + r / 64 % 64), Char.ofNat (128 + r % 64)]
  else
    [Char.ofNat (240 + r / 262144), Char.ofNat (128 + r / 4096 % 64),
      Char.ofNat (128 + r / 64 % 64), Char.ofNat (128 + r % 64)]

/-- Four hexadecimal digits (`getu4`, after the `\u`): their value and the rest. -/
def hex4 : Str → Option (Nat × Str)
  | a :: b :: c :: d :: rest =>
    if ishex a && ishex b && ishex c && ishex d then
      some (((unhex a * 16 + unhex b) * 16 + unhex c) * 16 + unhex d, rest)
    else none
  | _ => none

/-- The single-character escapes of a JSON string. -/
def jsonEscape (c : Char) : Option Char :=
  if c = Char.ofNat 34 then some (Char.ofNat 34)
  else if c = Char.ofNat 92 then some (Char.ofNat 92)
  else if c = '/' then some '/'
  else if c = 'b' then some (Char.ofNat 8)
  else if c = 'f' then some (Char.ofNat 12)
  else if c = 'n' then some '\n'
  else if c = 'r' then some '\r'
  else if c = 't' then some '\t'
  else none

/-- The rune of a `\uXXXX` escape with value `r`, given the input after it: a high
surrogate followed by an escaped low surrogate is combined with it, any other
surrogate is replaced by U+FFFD. -/
def jsonRune (r : Nat) (s : Str) : Nat × Str :=
  if 55296 ≤ r ∧ r < 57344 then
    match s with
    | a :: b :: s' =>
      if a = Char.ofNat 92 ∧ b = 'u' then
        match hex4 s' with
        | some (r2, s'') =>
          if r < 56320 ∧ 56320 ≤ r2 ∧ r2 < 57344 then
            ((r - 55296) * 1024 + (r2 - 56320) + 65536, s'')
          else (65533, s)
        | none => (65533, s)
      else (65533, s)
    | _ => (65533, s)
  else (r, s)

/-- A JSON string after its opening quote: the decoded bytes and the input after the
closing quote; `none` when the string is malformed.  Bytes from 0x80 up are copied
as they are, which is what the decoder does for well-formed UTF-8. -/
def jsonString : Nat → Str → Option (Str × Str)
  | 0, _ => none
  | _ + 1, [] => none
  | fuel + 1, c :: s =>
    if c = Char.ofNat 34 then some ([], s)
    else if c = Char.ofNat 92 then
      match s with
      | [] => none
      | e :: s' =>
        if e = 'u' then
          match hex4 s' with
          | none => none
          | some (r, s'') =>
            (jsonString fuel (jsonRune r s'').2).map
              (fun p => (utf8Encode (jsonRune r s'').1 ++ p.1, p.2))
        else
          match jsonEscape e with
          | none => none
          | some ch => (jsonString fuel s').map (fun p => (ch :: p.1, p.2))
    else if c.toNat < 32 then none
    else (jsonString fuel s).map (fun p => (c :: p.1, p.2))

/-- A member value decoded into a Go `string`: a JSON string, or `null`, which leaves
the zero value `""`.  Every other value is a type error. -/
def jsonStringValue (s : Str) : Option (Str × Str) :=
  match s with
  | c :: r =>
    if c = Char.ofNat 34 then jsonString (r.length + 1) r
    else if "null".toList.isPrefixOf s then some ([], s.drop 4)
    else none
  | [] => none

/-- The members of a JSON object, the input standing at a member name; each member is
assigned to the map, so that a repeated name keeps its last value. -/
def jsonMembers : Nat → GoMap → Str → Except Error GoMap
  | 0, _, _ => .error .jsonError
  | fuel + 1, m, s =>
    match s with
    | c :: r =>
      if c = Char.ofNat 34 then
        match jsonString (r.length + 1) r with
        | none => .error .jsonError
        | some (key, s1) =>
          match s1.dropWhile isJsonSpace with
          | c1 :: s2 =>
            if c1 = ':' then
              match jsonStringValue (s2.dropWhile isJsonSpace) with
              | none => .error .jsonError
              | some (val, s3) =>
                match s3.dropWhile isJsonSpace with
                | c2 :: s4 =>
                  if c2 = ',' then jsonMembers fuel (mapSet m key val) (s4.dropWhile isJsonSpace)
                  else if c2 = '}' then
                    (if s4.dropWhile isJsonSpace = [] then .ok (mapSet m key val)
                     else .error .jsonError)
                  else .error .jsonError
                | [] => .error .jsonError
            else .error .jsonError
          | [] => .error .jsonError
      else .error .jsonError
    | [] => .error .jsonError

/-- Model of `json.Unmarshal(data, &tmp)` for `tmp` an empty `map[string]string`: the
object's members as a map.  `null` leaves the map empty; malformed input, a value
that is not an object, and a member that is not a string are errors. -/
def jsonUnmarshal (data : Str) : Except Error GoMap :=
  match data.dropWhile isJsonSpace with
  | c :: r =>
    if c = '{' then
      match r.dropWhile isJsonSpace with
      | c1 :: r1 =>
        if c1 = '}' then (if r1.dropWhile isJsonSpace = [] then .ok [] else .error .jsonError)
        else jsonMembers (r.length + 1) [] (c1 :: r1)
      | [] => .error .jsonError
    else if "null".toList.isPrefixOf (c :: r)
        ∧ ((c :: r).drop 4).dropWhile isJsonSpace = [] then .ok []
    else .error .jsonError
  | [] => .error .jsonError

deriving instance DecidableEq for Except

/-! ## event.go -/

/-- The type `Event`: the headers and the raw body. -/
structure Event where
  Header : GoMap
  Body : Str
  deriving DecidableEq, Repr

/-- The method `GetHeader`: the header value, or the default when the header is absent
or empty. -/
def Event.GetHeader (self : Event) (key defaultValue : Str) : Str :=
  if mapGet self.Header key ≠ [] then mapGet self.Header key else defaultValue

/-- The method `GetInt`. -/
def Event.GetInt (self : Event) (key : Str) : Except Error Int :=
  Atoi (mapGet self.Header key)

/-- The method `GetContentLength`. -/
def Event.GetContentLength (self : Event) : Int :=
  match Atoi (self.GetHeader "Content-Length".toList "0".toList) with
  | .ok n => n
  | .error _ => 0

/-- The method `GetReplyText`. -/
def Event.GetReplyText (self : Event) : Str :=
  if self.GetHeader "Reply-Text".toList [] ≠ [] then self.GetHeader "Reply-Text".toList []
  else []

/-- The method `IsReplyTextSuccess`: whether the reply text contains `OK`. -/
def Event.IsReplyTextSuccess (self : Event) : Bool :=
  stringsContains self.GetReplyText "OK".toList

/-- The method `GetContentType`. -/
def Event.GetContentType (self : Event) : Str :=
  self.GetHeader "Content-Type".toList []

/-! ## eventsocket.go: the reader -/

/-- The value stored by `copyHeaders` for a header value: with `decode` the result of
`url.QueryUnescape`, the raw value when that fails; without `decode` the raw value. -/
def headerValue (decode : Bool) (v : Str) : Str :=
  if decode then
    match QueryUnescape v with
    | some u => u
    | none => v
  else v

/-- The function `copyHeaders`: every key of `src` is assigned, in `dst.Header`, the
first of its values (`v[0]`), decoded or not. -/
def copyHeaders (src : MIMEHeader) (dst : Event) (decode : Bool) : Event :=
  src.foldl (fun d kv => { d with Header := mapSet d.Header kv.1 (headerValue decode kv.2.1) }) dst

/-- The channels of an `EventSocket` that carry events. -/
inductive Chan where
  | auth
  | cmd
  | api
  | evt
  deriving DecidableEq, Repr

/-- What one call of `readOne` does. -/
inductive Outcome where
  /-- The event was sent on the channel and `readOne` returned `ret`. -/
  | sent (c : Chan) (ev : Event) (ret : Bool)
  /-- The `default` branch: the event was sent on `evt`, then `log.Fatal` ended the process. -/
  | sentFatal (ev : Event)
  /-- An error was sent on `err` and `readOne` returned `false`. -/
  | failed (err : Error)
  /-- A run-time panic (index out of range, negative slice length). -/
  | panicked
  deriving DecidableEq, Repr

/-- Reading of a body announced by a `Content-Length` value `v` (lines 81 to 91 and 120
to 130 of `eventsocket.go`): `strconv.Atoi`, `make([]byte, length)`, `io.ReadFull`. -/
inductive BodyRead where
  | ok (body rest : Str)
  | err (e : Error)
  | panic
  deriving DecidableEq, Repr

/-- See `BodyRead`.  `make` panics on a negative length. -/
def readBody (v : Str) (rd : Str) : BodyRead :=
  match Atoi v with
  | .error e => .err e
  | .ok length =>
    if length < 0 then .panic
    else
      match ReadFull length.toNat rd with
      | .error e => .err e
      | .ok (b, rest) => .ok b rest

/-- The body of a message with header `hdr`: empty unless `Content-Length` is present
and not empty. -/
def readContent (hdr : MIMEHeader) (rd : Str) : BodyRead :=
  if hdr.Get "Content-Length".toList ≠ [] then readBody (hdr.Get "Content-Length".toList) rd
  else .ok [] rd

/-- The case `text/event-plain` of `readOne`: the body is read again as a header block
with an optional body of its own. -/
def readEventPlain (body : Str) : Outcome :=
  match ReadMIMEHeader body with
  | (_, some err, _) => .failed err
  | (hdr, none, rd) =>
    match readContent hdr rd with
    | .err e => .failed e
    | .panic => .panicked
    | .ok b _ => .sent .evt (copyHeaders hdr ⟨[], b⟩ true) true

/-- The case `text/event-json` of `readOne`. -/
def readEventJson (body : Str) : Outcome :=
  match jsonUnmarshal body with
  | .error e => .failed e
  | .ok tmp =>
    let header := tmp.foldl (fun h kv => mapSet h kv.1 kv.2) []
    if mapGet header "_body".toList ≠ [] then
      .sent .evt ⟨mapDelete header "_body".toList, mapGet header "_body".toList⟩ true
    else .sent .evt ⟨header, []⟩ true

/-- The method `readOne` on the input that remains to be read: what it does, and the
input left afterwards. -/
def readOne (input : Str) : Outcome × Str :=
  match ReadMIMEHeader input with
  | (_, some err, rest) => (.failed err, rest)
  | (hdr, none, rest) =>
    match readContent hdr rest with
    | .err e => (.failed e, rest)
    | .panic => (.panicked, rest)
    | .ok body rest' =>
      let resp : Event := ⟨[], body⟩
      let ct := hdr.Get "Content-Type".toList
      if ct = "command/reply".toList then
        match hdr.Get "Reply-Text".toList with
        | [] => (.panicked, rest')
        | c :: _ =>
          if c = '%' then (.sent .cmd (copyHeaders hdr resp true) true, rest')
          else (.sent .cmd (copyHeaders hdr resp false) true, rest')
      else if ct = "api/response".toList then (.sent .api (copyHeaders hdr resp false) true, rest')
      else if ct = "auth/request".toList then (.sent .auth (copyHeaders hdr resp false) true, rest')
      else if ct = "text/event-plain".toList then (readEventPlain body, rest')
      else if ct = "text/event-json".toList then (readEventJson body, rest')
      else if ct = "text/disconnect-notice".toList then
        (.sent .evt (copyHeaders hdr resp false) false, rest')
      else (.sentFatal (copyHeaders hdr resp false), rest')

/-- The event that a call of `readOne` sent, with its channel. -/
def Outcome.published : Outcome → Option (Chan × Event)
  | .sent c ev _ => some (c, ev)
  | .sentFatal ev => some (.evt, ev)
  | .failed _ => none
  | .panicked => none

/-- The value that a call of `readOne` returned, when it returned. -/
def Outcome.returned : Outcome → Option Bool
  | .sent _ _ ret => some ret
  | .sentFatal _ => none
  | .failed _ => some false
  | .panicked => none

/-- What the reader goroutine sends, one item per call of `readOne`. -/
inductive Pub where
  | ev (c : Chan) (e : Event)
  | err (e : Error)
  /-- The process ends in `log.Fatal`. -/
  | fatal
  /-- The process ends in a panic. -/
  | panic
  deriving DecidableEq, Repr

/-- The method `readLoop`: `readOne` is called until it returns `false`. -/
def readLoop : Nat → Str → List Pub
  | 0, _ => []
  | fuel + 1, input =>
    match readOne input with
    | (.sent c ev true, rest) => .ev c ev :: readLoop fuel rest
    | (.sent c ev false, _) => [.ev c ev]
    | (.sentFatal ev, _) => [.ev .evt ev, .fatal]
    | (.failed e, _) => [.err e]
    | (.panicked, _) => [.panic]

/-- Everything the reader goroutine sends when the peer sends `input` and then closes. -/
def readerPubs (input : Str) : List Pub := readLoop (input.length + 1) input

/-! ## eventsocket.go: the session and its send primitives -/

/-- A TCP connection (`net.Conn`): the bytes the peer sends, the bytes written to it so
far, and whether this side has closed it. -/
structure Conn where
  incoming : Str
  written : Str
  closed : Bool
  deriving DecidableEq, Repr

/-- The method `Write`: on a closed connection it fails and writes nothing. -/
def Conn.write (c : Conn) (s : Str) : Conn :=
  if c.closed then c else { c with written := c.written ++ s }

/-- The method `Close`. -/
def Conn.Close (c : Conn) : Conn := { c with closed := true }

/-- A registered callback `func(*Event)`, known by a number. -/
abbrev Handler := Nat

/-- The handler table `map[string][]func(*Event)`. -/
abbrev HandlerTable := List (Str × List Handler)

/-- The names of a handler table. -/
def HandlerTable.names (t : HandlerTable) : List Str := t.map Prod.fst

/-- The constant `eventsBuffer`: capacity of the `evt` channel. -/
def eventsBuffer : Nat := 16

/-- The type `EventSocket`.  `pending` is what the reader goroutine has still to send,
`evtBuf` what it has put in the buffer of `evt`. -/
structure EventSocket where
  conn : Option Conn
  eventHandlers : HandlerTable
  pending : List Pub
  evtBuf : List Event
  deriving DecidableEq, Repr

/-- The constructor `NewEventSocket`. -/
def NewEventSocket (c : Option Conn) (evntHandlers : HandlerTable) : EventSocket :=
  { conn := c, eventHandlers := evntHandlers, pending := [], evtBuf := [] }

/-- The statement `go self.readLoop()`: on a nil connection the reader panics. -/
def EventSocket.startReader (e : EventSocket) : EventSocket :=
  match e.conn with
  | some c => { e with pending := readerPubs c.incoming }
  | none => { e with pending := [.panic] }

/-- Result of a receive on some of the channels other than `evt`. -/
inductive Recv where
  | gotEv (ev : Event) (pending : List Pub) (evtBuf : List Event)
  | gotErr (err : Error) (pending : List Pub) (evtBuf : List Event)
  /-- Nothing will ever arrive: the goroutine waits for ever. -/
  | blocked
  /-- The reader ended the process (panic or `log.Fatal`). -/
  | crashed
  deriving DecidableEq, Repr

/-- A `select` that receives from the channels `want` (none of them `evt`) and, with
`wantErr`, from `err`.  The channels other than `evt` are unbuffered, so the reader
waits on its first item that nobody receives; items for `evt` go to its buffer while
there is room. -/
def recv (want : Chan → Bool) (wantErr : Bool) : List Pub → List Event → Recv
  | [], _ => .blocked
  | .panic :: _, _ => .crashed
  | .fatal :: _, _ => .crashed
  | .err e :: rest, buf => if wantErr then .gotErr e rest buf else .blocked
  | .ev c ev :: rest, buf =>
    if want c then .gotEv ev rest buf
    else if c = .evt then
      (if buf.length < eventsBuffer then recv want wantErr rest (buf ++ [ev]) else .blocked)
    else .blocked

/-- The method `Connected`. -/
def EventSocket.Connected (e : EventSocket) : Bool := e.conn.isSome

/-- The method `Disconnect`: closes the connection when there is one. -/
def EventSocket.Disconnect (e : EventSocket) : EventSocket :=
  { e with conn := e.conn.map Conn.Close }

/-- Result of a send primitive: the pair `(*Event, error)` it returns, or no return. -/
inductive Reply where
  | ok (ev : Event)
  | err (e : Error)
  | blocked
  | crashed
  deriving DecidableEq, Repr

/-- The event of the returned pair (`nil` with an error). -/
def Reply.event : Reply → Option Event
  | .ok ev => some ev
  | _ => none

/-- The error of the returned pair. -/
def Reply.error : Reply → Option Error
  | .err e => some e
  | _ => none

/-- `fmt.Fprintf(e.conn, "%s\r\n\r\n", msg)`; a write error is ignored. -/
def EventSocket.writeCommand (e : EventSocket) (msg : Str) : EventSocket :=
  { e with conn := e.conn.map (fun c => c.write (msg ++ "\r\n\r\n".toList)) }

/-- The final `select` of a send primitive: the reply is received from one of the
channels `want`. -/
def EventSocket.await (e : EventSocket) (want : Chan → Bool) : Reply × EventSocket :=
  match recv want false e.pending e.evtBuf with
  | .gotEv ev rest buf => (.ok ev, { e with pending := rest, evtBuf := buf })
  | .gotErr _ _ _ => (.blocked, e)
  | .blocked => (.blocked, e)
  | .crashed => (.crashed, e)

/-- The verb `%t` of `fmt`. -/
def fmtBool (b : Bool) : Str := if b then "true".toList else "false".toList

/-- The text `msg` that `ProtocolSendMsg` builds. -/
def sendMsgText (name args uuid : Str) (Lock : Bool) (loop : Int) (asyn : Bool) : Str :=
  let msg := "sendmsg ".toList ++ uuid ++ "\ncall-command: execute\n".toList
  let msg := msg ++ ("execute-app-name: ".toList ++ name ++ "\n".toList)
  let msg := if Lock then msg ++ ("event-lock: ".toList ++ fmtBool Lock ++ "\n".toList) else msg
  let msg := if loop > 0 then msg ++ ("loops: ".toList ++ fmtInt loop ++ "\n".toList) else msg
  let msg := if asyn then msg ++ ("async: ".toList ++ fmtBool asyn ++ "\n".toList) else msg
  if args ≠ [] then
    msg ++ ("content-type: text/plain\ncontent-length: ".toList ++ fmtInt args.length
      ++ "\n\n".toList ++ args ++ "\n".toList)
  else msg

/-- The method `ProtocolSendMsg`. -/
def EventSocket.ProtocolSendMsg (e : EventSocket) (name args uuid : Str) (Lock : Bool)
    (loop : Int) (asyn : Bool) : Reply × EventSocket :=
  if ¬ e.Connected then (.err .notConnected, e)
  else (e.writeCommand (sendMsgText name args uuid Lock loop asyn)).await (fun c => c = .cmd)

/-- The method `ProtocolSend`. -/
def EventSocket.ProtocolSend (e : EventSocket) (command args : Str) : Reply × EventSocket :=
  if ¬ e.Connected then (.err .notConnected, e)
  else (e.writeCommand (command ++ " ".toList ++ args)).await (fun c => c = .cmd || c = .api)

/-- The method `ChannelConnect`. -/
def EventSocket.ChannelConnect (e : EventSocket) : Reply × EventSocket :=
  e.ProtocolSend "connect".toList []

/-- The method `EventPlain`. -/
def EventSocket.EventPlain (e : EventSocket) (args : Str) : Reply × EventSocket :=
  e.ProtocolSend "event plain".toList args

/-- The method `EventJson`. -/
def EventSocket.EventJson (e : EventSocket) (args : Str) : Reply × EventSocket :=
  e.ProtocolSend "event json".toList args

/-- The method `Auth`. -/
def EventSocket.Auth (e : EventSocket) (args : Str) : Reply × EventSocket :=
  e.ProtocolSend "auth".toList args

/-! ## inboundsocket.go and outboundsocket.go: connection establishment -/

/-- The loop that builds `eventsCmd` from the enumerated names: `ALL` replaces what was
built and ends the loop, any other name is appended after a space. -/
def eventsCmdLoop : List Str → Str → Str
  | [], eventsCmd => eventsCmd
  | ev :: rest, eventsCmd =>
    if ev = "ALL".toList then "ALL".toList
    else eventsCmdLoop rest (eventsCmd ++ (" ".toList ++ ev))

/-- The subscription argument `eventsCmd` (lines 63 to 71 of `inboundsocket.go`, 41 to 49
of `outboundsocket.go`) for the names in the order `handledEvs` has them. -/
def eventsCmd (handledEvs : List Str) : Str :=
  eventsCmdLoop handledEvs [] ++ "\n\n".toList

/-- How a connect operation ends. -/
inductive ConnectResult where
  /-- It returned the error (`none` is `nil`). -/
  | returned (err : Option Error)
  /-- It waits for ever for a reply. -/
  | blocked
  /-- The process ended (panic or `log.Fatal`). -/
  | crashed
  deriving DecidableEq, Repr

/-- The test `err != nil && !ev.IsReplyTextSuccess()`; `none` is the nil-pointer panic
of the method call on a nil event. -/
def filterFailedTest (ev : Option Event) (err : Option Error) : Option Bool :=
  match err with
  | none => some false
  | some _ =>
    match ev with
    | some ev => some (!ev.IsReplyTextSuccess)
    | none => none

/-- The subscription step of both connect operations (lines 72 to 84 of
`inboundsocket.go`, 51 to 64 of `outboundsocket.go`): `EventJson` or `EventPlain` with
`eventsCmd`, then the test of the reply, then `return nil`. -/
def subscribe (e : EventSocket) (isEventJson : Bool) (eventsCmd : Str) :
    ConnectResult × EventSocket :=
  match (if isEventJson then e.EventJson eventsCmd else e.EventPlain eventsCmd) with
  | (.blocked, e') => (.blocked, e')
  | (.crashed, e') => (.crashed, e')
  | (r, e') =>
    match filterFailedTest r.event r.error with
    | none => (.crashed, e')
    | some true => (.returned (some .filterFailed), e')
    | some false => (.returned none, e')

/-- The type `InboundSocket`; `sock` is the embedded `*EventSocket`. -/
structure InboundSocket where
  fsaddress : Str
  fspassword : Str
  reconnects : Int
  eventHandlers : HandlerTable
  sock : Option EventSocket
  isEventJson : Bool
  deriving DecidableEq, Repr

/-- A run of `InboundSocket.connect`: how it ended, how often `net.Dial` was called, how
often it slept two seconds, and the socket afterwards. -/
structure ConnectRun where
  result : ConnectResult
  dials : Nat
  sleeps : Nat
  self : InboundSocket
  deriving DecidableEq, Repr

/-- The body of the loop of `connect` after a successful dial (lines 36 to 84).
`handledEvs` is the table's names in the order the `range` statement yields them. -/
def InboundSocket.established (self : InboundSocket) (c : Conn) (handledEvs : List Str) :
    ConnectResult × InboundSocket :=
  let e0 := (NewEventSocket (some c) self.eventHandlers).startReader
  match recv (fun ch => ch = .auth) true e0.pending e0.evtBuf with
  | .blocked => (.blocked, { self with sock := some e0 })
  | .crashed => (.crashed, { self with sock := some e0 })
  | .gotErr err rest buf =>
    (.returned (some err), { self with sock := some { e0 with pending := rest, evtBuf := buf } })
  | .gotEv ev rest buf =>
    let e1 := { e0 with pending := rest, evtBuf := buf }
    if ev.GetContentType ≠ "auth/request".toList then
      (.returned (some .missingAuthRequest), { self with sock := some e1.Disconnect })
    else
      match e1.Auth self.fspassword with
      | (.blocked, e2) => (.blocked, { self with sock := some e2 })
      | (.crashed, e2) => (.crashed, { self with sock := some e2 })
      | (.err _, e2) => (.returned (some .invalidPassword), { self with sock := some e2.Disconnect })
      | (.ok _, e2) =>
        ((subscribe e2 self.isEventJson (eventsCmd handledEvs)).1,
          { self with sock := some (subscribe e2 self.isEventJson (eventsCmd handledEvs)).2 })

/-- The loop `for i := 0; i < self.reconnects; i++` of `connect`, with `n` iterations
left.  `dial i` is the outcome of the call of `net.Dial` in iteration `i`: a
connection, or `none` for an error.  `c, err := net.Dial(...)` declares both variables
anew inside the loop, so the variable `err` declared before the loop, here `outerErr`,
is never assigned; it is what `return err` after the loop returns. -/
def InboundSocket.connectLoop (dial : Nat → Option Conn) (handledEvs : List Str)
    (outerErr : Option Error) : Nat → Nat → InboundSocket → ConnectRun
  | 0, i, self => ⟨.returned outerErr, i, i, self⟩
  | n + 1, i, self =>
    match dial i with
    | some c =>
      ⟨(self.established c handledEvs).1, i + 1, i, (self.established c handledEvs).2⟩
    | none => InboundSocket.connectLoop dial handledEvs outerErr n (i + 1) self

/-- The method `InboundSocket.connect`. -/
def InboundSocket.connect (self : InboundSocket) (dial : Nat → Option Conn)
    (handledEvs : List Str) : ConnectRun :=
  InboundSocket.connectLoop dial handledEvs none self.reconnects.toNat 0 self

/-- Result of `NewInboundSocket`: the pair `(*InboundSocket, error)`, or no return. -/
inductive NewInbound where
  | returned (s : Option InboundSocket) (err : Option Error)
  | blocked
  | crashed
  deriving DecidableEq, Repr

/-- The function `NewInboundSocket`. -/
def NewInboundSocket (address password : Str) (reconnects : Int) (isEventJson : Bool)
    (eventHandlers : HandlerTable) (dial : Nat → Option Conn) (handledEvs : List Str) :
    NewInbound :=
  let inboundSocket : InboundSocket :=
    { fsaddress := address, fspassword := password, reconnects := reconnects,
      isEventJson := isEventJson, eventHandlers := eventHandlers, sock := none }
  match (inboundSocket.connect dial handledEvs).result with
  | .blocked => .blocked
  | .crashed => .crashed
  | .returned (some err) => .returned none (some err)
  | .returned none => .returned (some (inboundSocket.connect dial handledEvs).self) none

/-- The type `OutboundSocket`. -/
structure OutboundSocket where
  Channel : Option Event
  sock : Option EventSocket
  conn : Option Conn
  deriving DecidableEq, Repr

/-- The function `NewOutboundSocket`. -/
def NewOutboundSocket (conn : Option Conn) : OutboundSocket :=
  { Channel := none, sock := none, conn := conn }

/-- The method `OutboundSocket.Connect`.  `handledEvs` is the table's names in the order
the `range` statement yields them. -/
def OutboundSocket.Connect (self : OutboundSocket) (eventHandlers : HandlerTable)
    (isEventJson : Bool) (handledEvs : List Str) : ConnectResult × OutboundSocket :=
  match self.conn with
  | none => (.crashed, self)
  | some _ =>
    let e0 := (NewEventSocket self.conn eventHandlers).startReader
    match e0.ChannelConnect with
    | (.blocked, e1) => (.blocked, { self with sock := some e1 })
    | (.crashed, e1) => (.crashed, { self with sock := some e1 })
    | (.err err, e1) => (.returned (some err), { self with sock := some e1 })
    | (.ok ev, e1) =>
      ((subscribe e1 isEventJson (eventsCmd handledEvs)).1,
        { self with Channel := some ev,
                    sock := some (subscribe e1 isEventJson (eventsCmd handledEvs)).2 })

/-! ## Example messages -/

/-- A `text/event-json` message whose one-byte body is not JSON. -/
def exUndecodableJson : Str :=
  "Content-Type: text/event-json\nContent-Length: 1\n\nx".toList

/-- An `auth/request` message followed by the first bytes of the next one. -/
def exAuthRequest : Str := "Content-Type: auth/request\n\nContent-Type".toList

/-- A `text/event-plain` frame: a body of 63 bytes, made of three header lines, an
empty line and the two bytes `HI`, followed by the start of the next message. -/
def exPlainFrame : Str :=
  ("Content-Length: 63\nContent-Type: text/event-plain\n\n"
    ++ "Event-Name: HEARTBEAT\nUp-Time: 12%2045%zz\nContent-Length: 2\n\nHI" ++ "Content").toList

/-- The body of `exPlainFrame`. -/
def exPlainBody : Str :=
  "Event-Name: HEARTBEAT\nUp-Time: 12%2045%zz\nContent-Length: 2\n\nHI".toList

/-- A `text/event-json` message with a body of 50 bytes: an object with the members
`Event-Name` and `_body`. -/
def exJsonEvent : Str :=
  ("Content-Type: text/event-json\nContent-Length: 50\n\n"
    ++ "\x7b\"Event-Name\":\"API\",\"_body\":\"sofia status output\"\x7d").toList

/-- The body of `exJsonEvent`. -/
def exJsonBody : Str :=
  "\x7b\"Event-Name\":\"API\",\"_body\":\"sofia status output\"\x7d".toList

/-- A `command/reply` message whose `Reply-Text` starts with `%`. -/
def exEncodedReply : Str :=
  "Content-Type: command/reply\nReply-Text: %2BOK a+b\n\n".toList

/-! ## Example sessions -/

/-- A connected socket that has written nothing and whose reader has a reply ready
on `cmd`. -/
def exSocket : EventSocket :=
  { conn := some ⟨[], [], false⟩, eventHandlers := [],
    pending := [.ev .cmd ⟨[("Reply-Text".toList, "+OK".toList)], []⟩], evtBuf := [] }

/-- What a server sends that asks for authentication, refuses the password and then
accepts the subscription. -/
def exServerRefusesPassword : Str :=
  ("Content-Type: auth/request\n\n"
    ++ "Content-Type: command/reply\nReply-Text: -ERR invalid\n\n"
    ++ "Content-Type: command/reply\nReply-Text: +OK event listener enabled plain\n\n").toList

/-- What a server sends that asks for authentication, refuses the password and closes. -/
def exServerRefusesAndCloses : Str :=
  ("Content-Type: auth/request\n\n"
    ++ "Content-Type: command/reply\nReply-Text: -ERR invalid\n\n").toList

/-- What a server sends that asks for authentication, accepts the password and then
refuses the subscription. -/
def exServerRefusesFilter : Str :=
  ("Content-Type: auth/request\n\n"
    ++ "Content-Type: command/reply\nReply-Text: +OK accepted\n\n"
    ++ "Content-Type: command/reply\nReply-Text: -ERR no such event\n\n").toList

/-- What a peer sends on an outbound connection that answers `connect` and then refuses
the subscription. -/
def exPeerRefusesFilter : Str :=
  ("Content-Type: command/reply\nReply-Text: +OK\nChannel-Unique-Id: u1\n\n"
    ++ "Content-Type: command/reply\nReply-Text: -ERR no such event\n\n").toList

/-- What a server sends in a successful inbound session start. -/
def exServerAccepts : Str :=
  ("Content-Type: auth/request\n\n"
    ++ "Content-Type: command/reply\nReply-Text: +OK accepted\n\n"
    ++ "Content-Type: command/reply\nReply-Text: +OK event listener enabled plain\n\n").toList

/-- An inbound socket with one handler for `HEARTBEAT`, plain encoding and up to three
dial attempts. -/
def exInbound : InboundSocket :=
  { fsaddress := "127.0.0.1:8021".toList, fspassword := "ClueCon".toList, reconnects := 3,
    eventHandlers := [("HEARTBEAT".toList, [0])], sock := none, isEventJson := false }

/-- The bytes written on the connection of an inbound socket, if it has one. -/
def InboundSocket.written (self : InboundSocket) : Option Str :=
  (self.sock.bind (fun e => e.conn)).map Conn.written

/-- The bytes written on the connection of an outbound socket's session, if it has one. -/
def OutboundSocket.written (self : OutboundSocket) : Option Str :=
  (self.sock.bind (fun e => e.conn)).map Conn.written

/-- An inbound socket with handlers for `HEARTBEAT` and `ALL`. -/
def exInboundAll : InboundSocket :=
  { fsaddress := "127.0.0.1:8021".toList, fspassword := "ClueCon".toList, reconnects := 3,
    eventHandlers := [("HEARTBEAT".toList, [0]), ("ALL".toList, [1])], sock := none,
    isEventJson := false }

/-! ## eventsocket.go: events for the application -/

/-- Lookup in the handler table, the `v, ok := m[k]` form. -/
def handlersGet? : HandlerTable → Str → Option (List Handler)
  | [], _ => none
  | (k', hs) :: t, k => if k' = k then some hs else handlersGet? t k

/-- The loop `for _, handlerFunc := range ...` of `dispatchEvent`: its body is
`go handlerFunc(event)` followed by `return`.  The result lists the invocations
started. -/
def dispatchLoop : List Handler → Event → List (Handler × Event)
  | [], _ => []
  | handlerFunc :: _, event => [(handlerFunc, event)]

/-- The method `dispatchEvent`: the handler invocations it starts.  The argument is a
pointer; on `nil` the call `event.GetHeader` panics, which is the result `none`. -/
def EventSocket.dispatchEvent (self : EventSocket) (event : Option Event) :
    Option (List (Handler × Event)) :=
  match event with
  | none => none
  | some ev =>
    if ev.GetHeader "Event-Name".toList [] ≠ [] then
      match handlersGet? self.eventHandlers (ev.GetHeader "Event-Name".toList []) with
      | some handlers => some (dispatchLoop handlers ev)
      | none => some []
    else some []

/-- The reader goroutine puts its next items for `evt` into the buffer of that channel
while there is room. -/
def advance : List Pub → List Event → List Pub × List Event
  | [], buf => ([], buf)
  | p :: rest, buf =>
    match p with
    | .ev .evt e =>
      if buf.length < eventsBuffer then advance rest (buf ++ [e]) else (p :: rest, buf)
    | _ => (p :: rest, buf)

/-- Result of `readEvent`: the pair `(*Event, error)` it returns, or no return. -/
inductive ReadEvent where
  | ok (ev : Event)
  | err (e : Error)
  | blocked
  | crashed
  deriving DecidableEq, Repr

/-- The event of the returned pair (`nil` with an error). -/
def ReadEvent.event : ReadEvent → Option Event
  | .ok ev => some ev
  | _ => none

/-- The error of the returned pair. -/
def ReadEvent.error : ReadEvent → Option Error
  | .err e => some e
  | _ => none

/-- The method `readEvent`: a `select` on `discon`, `evt` and `err`.  Nothing is ever
sent on `discon`.  When an event is buffered and the reader offers an error at the same
time, `select` takes either; `preferErr` says which. -/
def EventSocket.readEvent (e : EventSocket) (preferErr : Bool) : ReadEvent × EventSocket :=
  match advance e.pending e.evtBuf with
  | (.panic :: _, _) => (.crashed, e)
  | (.fatal :: _, _) => (.crashed, e)
  | (.err er :: rest, []) => (.err er, { e with pending := rest, evtBuf := [] })
  | (.err er :: rest, ev :: buf) =>
    if preferErr then (.err er, { e with pending := rest, evtBuf := ev :: buf })
    else (.ok ev, { e with pending := .err er :: rest, evtBuf := buf })
  | (pending, ev :: buf) => (.ok ev, { e with pending := pending, evtBuf := buf })
  | (_, []) => (.blocked, e)

/-- One pass through the body of the loop of `OutboundSocket.Start`. -/
structure Iteration where
  /-- Whether `self.Disconnect()` was called. -/
  disconnected : Bool
  /-- The argument of `go self.dispatchEvent(ev)`, when the statement was reached. -/
  dispatched : Option (Option Event)
  /-- The handler invocations started by that call; `none` when it panicked. -/
  started : Option (List (Handler × Event))
  /-- Whether the body ran to its end, after which the loop calls `readEvent` again. -/
  readsAgain : Bool
  /-- The socket afterwards. -/
  sock : EventSocket
  deriving DecidableEq, Repr

/-- The body of the loop of `OutboundSocket.Start` (lines 70 to 75 of
`outboundsocket.go`) on the session `e`: `readEvent`, on an error `Disconnect`, then
`go self.dispatchEvent(ev)`. -/
def startIteration (e : EventSocket) (preferErr : Bool) : Iteration :=
  match e.readEvent preferErr with
  | (.blocked, e1) => ⟨false, none, some [], false, e1⟩
  | (.crashed, e1) => ⟨false, none, some [], false, e1⟩
  | (r, e1) =>
    if r.error ≠ none then
      ⟨true, some r.event, e1.Disconnect.dispatchEvent r.event, true, e1.Disconnect⟩
    else ⟨false, some r.event, e1.dispatchEvent r.event, true, e1⟩

/-- The body of the loop of `InboundSocket.Start` (lines 95 to 109 of
`inboundsocket.go`) when `readEvent` returned an event: it is dispatched.  On an error
the body reconnects and ends with `continue`, without a dispatch. -/
def inboundIterationDispatch (e : EventSocket) (preferErr : Bool) :
    Option (Option Event) :=
  match e.readEvent preferErr with
  | (.ok ev, _) => some (some ev)
  | _ => none

/-! ## eventsocket.go: `play_and_get_digits` -/

/-- The method `Set`. -/
def EventSocket.Set (e : EventSocket) (args uuid : Str) (islock : Bool) : Reply × EventSocket :=
  e.ProtocolSendMsg "set".toList args uuid islock 0 false

/-- The loop over `soundFiles`: `playStr += fmt.Sprintf("%s!%s", playStr, soundFile)`. -/
def playStrLoop : List Str → Str → Str
  | [], playStr => playStr
  | soundFile :: rest, playStr =>
    playStrLoop rest (playStr ++ (playStr ++ "!".toList ++ soundFile))

/-- The play-string `playStr` that `PlayAndGetDigits` builds (lines 636 to 653). -/
def playString (playBeep : Bool) (soundFiles : List Str) : Str :=
  if soundFiles.length = 0 then
    (if playBeep then "tone_stream://%(300,200,700)".toList else "silence_stream://10".toList)
  else
    if playBeep then
      playStrLoop soundFiles "file_string://silence_stream://1".toList
        ++ (playStrLoop soundFiles "file_string://silence_stream://1".toList ++ "!".toList
          ++ "tone_stream://%(300,200,700)".toList)
    else playStrLoop soundFiles "file_string://silence_stream://1".toList

/-- The verb `%s` of `fmt` applied to an `int`. -/
def fmtSInt (n : Int) : Str := "%!s(int=".toList ++ fmtInt n ++ ")".toList

/-- The conversion `string(n)` of an `int`: the UTF-8 encoding of the code point, of
U+FFFD when `n` is not one. -/
def runeString (n : Int) : Str :=
  if 0 ≤ n ∧ n < 1114112 ∧ ¬ (55296 ≤ n ∧ n < 57344) then utf8Encode n.toNat
  else utf8Encode 65533

/-- The regular expression `regexp` of `PlayAndGetDigits`. -/
def digitsRegexp (validDigits : Str) : Str :=
  "(".toList
    ++ (if validDigits = [] then "d+".toList
        else (validDigits.map (fun value => [value, '|'])).flatten)
    ++ ")".toList

/-- The arguments `args` that `PlayAndGetDigits` sends with `play_and_get_digits`. -/
def playAndGetDigitsArgs (minDigits maxDigits maxTries timeout : Int)
    (terminators invalidFile digitVarName validDigits digitTimeout : Str)
    (playBeep : Bool) (soundFiles : List Str) : Str :=
  fmtSInt minDigits ++ " ".toList ++ fmtSInt maxDigits ++ " ".toList ++ fmtSInt maxTries
    ++ " ".toList ++ fmtSInt timeout ++ " ".toList
    ++ [Char.ofNat 39] ++ terminators ++ [Char.ofNat 39] ++ " ".toList
    ++ playString playBeep soundFiles ++ " ".toList
    ++ (if invalidFile = [] then "silence_stream://150".toList else invalidFile) ++ " ".toList
    ++ digitVarName ++ " ".toList
    ++ digitsRegexp validDigits ++ " ".toList
    ++ (if digitTimeout = [] then runeString timeout else digitTimeout)

/-- The method `PlayAndGetDigits`.  With sound files it first calls `Set` and drops
what `Set` returns. -/
def EventSocket.PlayAndGetDigits (e : EventSocket) (minDigits maxDigits maxTries timeout : Int)
    (terminators invalidFile digitVarName validDigits digitTimeout uuid : Str)
    (playBeep : Bool) (soundFiles : List Str) : Reply × EventSocket :=
  if soundFiles.length = 0 then
    e.ProtocolSendMsg "play_and_get_digits".toList
      (playAndGetDigitsArgs minDigits maxDigits maxTries timeout terminators invalidFile
        digitVarName validDigits digitTimeout playBeep soundFiles) uuid true 0 false
  else
    match e.Set "playback_delimiter=!".toList uuid true with
    | (.blocked, e1) => (.blocked, e1)
    | (.crashed, e1) => (.crashed, e1)
    | (_, e1) =>
      e1.ProtocolSendMsg "play_and_get_digits".toList
        (playAndGetDigitsArgs minDigits maxDigits maxTries timeout terminators invalidFile
          digitVarName validDigits digitTimeout playBeep soundFiles) uuid true 0 false

/-! ## Further examples -/

/-- A session with two handlers for `HEARTBEAT` and one for `CUSTOM`. -/
def exDispatchSocket : EventSocket :=
  { conn := some ⟨[], [], false⟩,
    eventHandlers := [("HEARTBEAT".toList, [0, 1]), ("CUSTOM".toList, [2])],
    pending := [], evtBuf := [] }

/-- A `HEARTBEAT` event. -/
def exHeartbeat : Event := ⟨[("Event-Name".toList, "HEARTBEAT".toList)], []⟩

/-- A `command/reply` message without `Reply-Text`. -/
def exReplyWithoutText : Str := "Content-Type: command/reply\n\n".toList

/-- An `api/response` message with the header `Content-Length: -1`. -/
def exNegativeLength : Str := "Content-Type: api/response\nContent-Length: -1\n\n".toList

/-- A `text/event-plain` frame whose inner block has the header `Content-Length: -1`. -/
def exInnerNegativeLength : Str :=
  ("Content-Type: text/event-plain\nContent-Length: 41\n\n"
    ++ "Event-Name: CUSTOM\nContent-Length: -1\n\nab").toList

/-- An `api/response` message with the header `Content-Length: abc`. -/
def exTextLength : Str := "Content-Type: api/response\nContent-Length: abc\n\n".toList

/-- An outbound session, subscribed, whose peer has closed: the reader offers
`io.EOF` on `err`. -/
def exClosedByPeer : EventSocket :=
  { conn := some ⟨[], "connect \r\n\r\nevent plain ALL\n\n\r\n\r\n".toList, false⟩,
    eventHandlers := [("ALL".toList, [0])], pending := [.err .eof], evtBuf := [] }

/-- A connected session after `Disconnect`, with a reply from the reader still to be
received. -/
def exDisconnected : EventSocket := exSocket.Disconnect

/-- An event with the header `Content-Length: 42`. -/
def exLengthEvent : Event := ⟨[("Content-Length".toList, "42".toList)], []⟩

/-- A `text/event-json` message whose object has the member `Content-Length` with the
value `5` and the member `_body` with the value `ab`. -/
def exJsonLength : Str :=
  ("Content-Type: text/event-json\nContent-Length: 35\n\n"
    ++ "\x7b\"Content-Length\":\"5\",\"_body\":\"ab\"\x7d").toList

/-- A `text/event-plain` frame with a body of 62 bytes: the inner headers `Event-Name`,
`Uptime-msec` and `Content-Length`, and the inner body `HI`. -/
def exHeartbeatFrame : Str :=
  ("Content-Length: 62\nContent-Type: text/event-plain\n\n"
    ++ "Event-Name: HEARTBEAT\nUptime-msec: 12345\nContent-Length: 2\n\nHI").toList

/-! # Theorems -/

/-! ## Lemmas on maps and headers -/

theorem mapGet?_append_single (m : GoMap) (k v k' : Str) :
    mapGet? (m ++ [(k, v)]) k' = (mapGet? m k').orElse (fun _ => if k = k' then some v else none) := by
  induction m with
  | nil => simp [mapGet?]
  | cons p m ih =>
    obtain ⟨a, b⟩ := p
    by_cases h : a = k'
    · simp [mapGet?, h]
    · simp [mapGet?, h, ih]

theorem mapSet_of_absent (m : GoMap) (k v : Str) (h : mapGet? m k = none) :
    mapSet m k v = m ++ [(k, v)] := by
  induction m with
  | nil => simp [mapSet]
  | cons p m ih =>
    obtain ⟨a, b⟩ := p
    by_cases hk : a = k
    · simp [mapGet?, hk] at h
    · simp [mapGet?, hk] at h
      simp [mapSet, hk, ih h]

theorem mapGet?_eq_none_iff (m : GoMap) (k : Str) :
    mapGet? m k = none ↔ k ∉ m.map Prod.fst := by
  induction m with
  | nil => simp [mapGet?]
  | cons p m ih =>
    obtain ⟨a, b⟩ := p
    have hk' : a = k ↔ k = a := eq_comm
    by_cases hk : a = k
    · simp [mapGet?, hk]
    · simp only [mapGet?, hk, if_false, ih, List.map_cons, List.mem_cons]
      tauto

theorem mapSet_keys_nodup (m : GoMap) (k v : Str) (h : (m.map Prod.fst).Nodup) :
    ((mapSet m k v).map Prod.fst).Nodup := by
  induction m with
  | nil => simp [mapSet]
  | cons p m ih =>
    obtain ⟨a, b⟩ := p
    by_cases hk : a = k
    · subst hk
      simpa [mapSet] using h
    · simp only [mapSet, hk, if_false, List.map_cons, List.nodup_cons] at h ⊢
      refine ⟨?_, ih h.2⟩
      intro hmem
      by_cases hab : mapGet? m k = none
      · rw [mapSet_of_absent m k v hab] at hmem
        simp at hmem
        rcases hmem with hmem | hmem
        · exact h.1 (by simpa using hmem)
        · exact hk hmem
      · have : ∀ (m : GoMap), (mapSet m k v).map Prod.fst = m.map Prod.fst ∨
            (mapSet m k v).map Prod.fst = m.map Prod.fst ++ [k] := by
          intro m
          induction m with
          | nil => simp [mapSet]
          | cons q m ihm =>
            obtain ⟨c, d⟩ := q
            by_cases hc : c = k
            · simp [mapSet, hc]
            · rcases ihm with ihm | ihm <;> simp [mapSet, hc, ihm]
        rcases this m with e | e
        · rw [e] at hmem; exact h.1 hmem
        · rw [e] at hmem
          simp at hmem
          rcases hmem with hmem | hmem
          · exact h.1 (by simpa using hmem)
          · exact hk hmem

/-- Assigning the entries of a map with distinct keys to an empty map, one after the
other, rebuilds the map. -/
theorem foldl_mapSet_eq (tmp acc : GoMap) (h : ((acc ++ tmp).map Prod.fst).Nodup) :
    tmp.foldl (fun h kv => mapSet h kv.1 kv.2) acc = acc ++ tmp := by
  induction tmp generalizing acc with
  | nil => simp
  | cons p tmp ih =>
    obtain ⟨a, b⟩ := p
    have habs : mapGet? acc a = none := by
      rw [mapGet?_eq_none_iff]
      intro hmem
      simp only [List.map_append, List.map_cons] at h
      have := (List.nodup_append.mp h).2.2
      exact this hmem (by simp)
    simp only [List.foldl_cons]
    rw [mapSet_of_absent acc a b habs, ih]
    · simp
    · simpa using h

theorem mimeLookup_eq_none_iff (m : MIMEHeader) (k : Str) :
    mimeLookup m k = none ↔ k ∉ m.map Prod.fst := by
  induction m with
  | nil => simp [mimeLookup]
  | cons p m ih =>
    obtain ⟨a, b⟩ := p
    have hk' : a = k ↔ k = a := eq_comm
    by_cases hk : a = k
    · simp [mimeLookup, hk]
    · simp only [mimeLookup, hk, if_false, ih, List.map_cons, List.mem_cons]
      tauto

theorem mimeAdd_keys (m : MIMEHeader) (k v : Str) :
    (mimeAdd m k v).map Prod.fst =
      if k ∈ m.map Prod.fst then m.map Prod.fst else m.map Prod.fst ++ [k] := by
  induction m with
  | nil => simp [mimeAdd]
  | cons p m ih =>
    obtain ⟨a, b, c⟩ := p
    by_cases hk : a = k
    · simp [mimeAdd, hk]
    · have hk' : ¬ k = a := fun h => hk h.symm
      by_cases hm : k ∈ m.map Prod.fst
      · simp only [mimeAdd, hk, if_false, List.map_cons, ih, hm, if_true, List.mem_cons, or_true]
      · simp only [mimeAdd, hk, if_false, List.map_cons, ih, hm, List.mem_cons, hk', or_self,
          List.cons_append]

theorem mimeAdd_keys_nodup (m : MIMEHeader) (k v : Str) (h : (m.map Prod.fst).Nodup) :
    ((mimeAdd m k v).map Prod.fst).Nodup := by
  rw [mimeAdd_keys]
  split
  · exact h
  · rename_i hk
    rw [List.nodup_append]
    refine ⟨h, by simp, ?_⟩
    intro a ha hb
    simp at hb
    subst hb
    exact hk ha

theorem readMIMEHeaderLoop_keys_nodup (fuel : Nat) (m : MIMEHeader) (s : Str)
    (h : (m.map Prod.fst).Nodup) :
    ((readMIMEHeaderLoop fuel m s).1.map Prod.fst).Nodup := by
  induction fuel generalizing m s with
  | zero => simpa [readMIMEHeaderLoop] using h
  | succ n ih =>
    rw [readMIMEHeaderLoop]
    split
    · exact h
    · split
      · exact h
      · split
        · exact h
        · dsimp only
          split
          · exact h
          · split
            · exact h
            · split
              · exact ih _ _ h
              · exact ih _ _ (mimeAdd_keys_nodup _ _ _ h)

/-- The header returned by `ReadMIMEHeader` has pairwise distinct keys. -/
theorem ReadMIMEHeader_keys_nodup (s : Str) : ((ReadMIMEHeader s).1.map Prod.fst).Nodup := by
  unfold ReadMIMEHeader
  split
  · split
    · simp
    · exact readMIMEHeaderLoop_keys_nodup _ _ _ (by simp)
  · exact readMIMEHeaderLoop_keys_nodup _ _ _ (by simp)

theorem copyHeaders_fold (src : MIMEHeader) (acc : GoMap) (b : Str) (decode : Bool)
    (h : (acc.map Prod.fst ++ src.map Prod.fst).Nodup) :
    copyHeaders src ⟨acc, b⟩ decode =
      ⟨acc ++ src.map (fun kv => (kv.1, headerValue decode kv.2.1)), b⟩ := by
  induction src generalizing acc with
  | nil => simp [copyHeaders]
  | cons p src ih =>
    obtain ⟨k, v, vs⟩ := p
    have habs : mapGet? acc k = none := by
      rw [mapGet?_eq_none_iff]
      intro hmem
      exact (List.nodup_append.mp h).2.2 hmem (by simp)
    have hstep : copyHeaders ((k, v, vs) :: src) ⟨acc, b⟩ decode
        = copyHeaders src ⟨mapSet acc k (headerValue decode v), b⟩ decode := by
      simp [copyHeaders]
    rw [hstep, mapSet_of_absent acc k _ habs, ih]
    · simp
    · simpa using h

/-- On a header with distinct keys, `copyHeaders` into an event without headers stores
one entry per key: the first value, decoded or not. -/
theorem copyHeaders_eq (src : MIMEHeader) (b : Str) (decode : Bool)
    (h : (src.map Prod.fst).Nodup) :
    copyHeaders src ⟨[], b⟩ decode =
      ⟨src.map (fun kv => (kv.1, headerValue decode kv.2.1)), b⟩ := by
  simpa using copyHeaders_fold src [] b decode (by simpa using h)

theorem mapGet?_map_header (src : MIMEHeader) (decode : Bool) (k : Str) :
    mapGet? (src.map (fun kv => (kv.1, headerValue decode kv.2.1))) k =
      (mimeLookup src k).map (fun v => headerValue decode v.1) := by
  induction src with
  | nil => simp [mapGet?, mimeLookup]
  | cons p src ih =>
    obtain ⟨a, v, vs⟩ := p
    by_cases hk : a = k
    · simp [mapGet?, mimeLookup, hk]
    · simp [mapGet?, mimeLookup, hk, ih]

theorem mapGet?_mapDelete (m : GoMap) (k k' : Str) :
    mapGet? (mapDelete m k) k' = if k' = k then none else mapGet? m k' := by
  induction m with
  | nil => simp [mapDelete, mapGet?]
  | cons p m ih =>
    obtain ⟨a, b⟩ := p
    by_cases ha : a = k
    · subst ha
      by_cases hk : k' = a
      · subst hk
        simpa [mapDelete, mapGet?] using ih
      · have : ¬ a = k' := fun h => hk h.symm
        simpa [mapDelete, mapGet?, hk, this] using ih
    · by_cases hk : k' = k
      · subst hk
        simpa [mapDelete, mapGet?, ha] using ih
      · by_cases hak : a = k'
        · subst hak
          simp [mapDelete, mapGet?, ha]
        · simpa [mapDelete, mapGet?, ha, hk, hak] using ih

theorem jsonMembers_keys_nodup (fuel : Nat) (m : GoMap) (s : Str) (tmp : GoMap)
    (hm : (m.map Prod.fst).Nodup) (h : jsonMembers fuel m s = .ok tmp) :
    (tmp.map Prod.fst).Nodup := by
  induction fuel generalizing m s with
  | zero => simp [jsonMembers] at h
  | succ n ih =>
    unfold jsonMembers at h
    split at h
    · split at h
      · split at h
        · cases h
        · split at h
          · split at h
            · split at h
              · cases h
              · split at h
                · split at h
                  · exact ih _ _ (mapSet_keys_nodup _ _ _ hm) h
                  · split at h
                    · split at h
                      · cases h
                        exact mapSet_keys_nodup _ _ _ hm
                      · cases h
                    · cases h
                · cases h
            · cases h
          · cases h
      · cases h
    · cases h

/-- The map decoded by `jsonUnmarshal` has pairwise distinct keys. -/
theorem jsonUnmarshal_keys_nodup (data : Str) (tmp : GoMap) (h : jsonUnmarshal data = .ok tmp) :
    (tmp.map Prod.fst).Nodup := by
  unfold jsonUnmarshal at h
  split at h
  · split at h
    · split at h
      · split at h
        · split at h
          · cases h; simp
          · cases h
        · exact jsonMembers_keys_nodup _ _ _ _ (by simp) h
      · cases h
    · split at h
      · cases h; simp
      · cases h
  · cases h

theorem ReadFull_append (body rest : Str) :
    ReadFull body.length (body ++ rest) = .ok (body, rest) := by
  simp [ReadFull]

/-! ## The branches of `readOne` -/

theorem readOne_auth (input : Str) (hdr : MIMEHeader) (rest body rest' : Str)
    (hh : ReadMIMEHeader input = (hdr, none, rest))
    (hb : readContent hdr rest = .ok body rest')
    (hct : hdr.Get "Content-Type".toList = "auth/request".toList) :
    readOne input = (.sent .auth (copyHeaders hdr ⟨[], body⟩ false) true, rest') := by
  simp only [readOne, hh, hb, hct]
  rfl

theorem readOne_api (input : Str) (hdr : MIMEHeader) (rest body rest' : Str)
    (hh : ReadMIMEHeader input = (hdr, none, rest))
    (hb : readContent hdr rest = .ok body rest')
    (hct : hdr.Get "Content-Type".toList = "api/response".toList) :
    readOne input = (.sent .api (copyHeaders hdr ⟨[], body⟩ false) true, rest') := by
  simp only [readOne, hh, hb, hct]
  rfl

theorem readOne_cmd (input : Str) (hdr : MIMEHeader) (rest body rest' : Str) (c : Char)
    (r : Str)
    (hh : ReadMIMEHeader input = (hdr, none, rest))
    (hb : readContent hdr rest = .ok body rest')
    (hct : hdr.Get "Content-Type".toList = "command/reply".toList)
    (hr : hdr.Get "Reply-Text".toList = c :: r) :
    readOne input
      = (.sent .cmd (copyHeaders hdr ⟨[], body⟩ (decide (c = '%'))) true, rest') := by
  by_cases hc : c = '%'
  · simp only [readOne, hh, hb, hct, hr, hc]
    rfl
  · simp only [readOne, hh, hb, hct, hr, hc]
    rfl

theorem readOne_plain (input : Str) (hdr : MIMEHeader) (rest body rest' : Str)
    (hh : ReadMIMEHeader input = (hdr, none, rest))
    (hb : readContent hdr rest = .ok body rest')
    (hct : hdr.Get "Content-Type".toList = "text/event-plain".toList) :
    readOne input = (readEventPlain body, rest') := by
  simp only [readOne, hh, hb, hct]
  rfl

theorem readOne_json (input : Str) (hdr : MIMEHeader) (rest body rest' : Str)
    (hh : ReadMIMEHeader input = (hdr, none, rest))
    (hb : readContent hdr rest = .ok body rest')
    (hct : hdr.Get "Content-Type".toList = "text/event-json".toList) :
    readOne input = (readEventJson body, rest') := by
  simp only [readOne, hh, hb, hct]
  rfl

theorem readOne_disconnect (input : Str) (hdr : MIMEHeader) (rest body rest' : Str)
    (hh : ReadMIMEHeader input = (hdr, none, rest))
    (hb : readContent hdr rest = .ok body rest')
    (hct : hdr.Get "Content-Type".toList = "text/disconnect-notice".toList) :
    readOne input = (.sent .evt (copyHeaders hdr ⟨[], body⟩ false) false, rest') := by
  simp only [readOne, hh, hb, hct]
  rfl

theorem readOne_other (input : Str) (hdr : MIMEHeader) (rest body rest' : Str)
    (hh : ReadMIMEHeader input = (hdr, none, rest))
    (hb : readContent hdr rest = .ok body rest')
    (hct : hdr.Get "Content-Type".toList ∉
        ["command/reply".toList, "api/response".toList, "auth/request".toList,
          "text/event-plain".toList, "text/event-json".toList,
          "text/disconnect-notice".toList]) :
    readOne input = (.sentFatal (copyHeaders hdr ⟨[], body⟩ false), rest') := by
  simp only [List.mem_cons, List.mem_singleton, not_or, List.not_mem_nil, or_false] at hct
  obtain ⟨h1, h2, h3, h4, h5, h6⟩ := hct
  simp only [readOne, hh, hb, h1, h2, h3, h4, h5, h6, if_false]

theorem readEventPlain_ok (body : Str) (ih : MIMEHeader) (ird ib ir : Str)
    (hi : ReadMIMEHeader body = (ih, none, ird)) (hib : readContent ih ird = .ok ib ir) :
    readEventPlain body = .sent .evt (copyHeaders ih ⟨[], ib⟩ true) true := by
  simp only [readEventPlain, hi, hib]

theorem readEventPlain_header_error (body : Str) (ih : MIMEHeader) (e : Error) (ird : Str)
    (hi : ReadMIMEHeader body = (ih, some e, ird)) :
    readEventPlain body = .failed e := by
  simp only [readEventPlain, hi]

theorem readEventJson_error (body : Str) (e : Error) (hj : jsonUnmarshal body = .error e) :
    readEventJson body = .failed e := by
  simp only [readEventJson, hj]

theorem readEventJson_ok (body : Str) (tmp : GoMap) (hj : jsonUnmarshal body = .ok tmp) :
    readEventJson body =
      if mapGet tmp "_body".toList ≠ [] then
        .sent .evt ⟨mapDelete tmp "_body".toList, mapGet tmp "_body".toList⟩ true
      else .sent .evt ⟨tmp, []⟩ true := by
  have hnd := jsonUnmarshal_keys_nodup body tmp hj
  have hf : tmp.foldl (fun h kv => mapSet h kv.1 kv.2) [] = tmp := by
    simpa using foldl_mapSet_eq tmp [] (by simpa using hnd)
  simp only [readEventJson, hj, hf]

theorem headerValue_true (v : Str) : headerValue true v = (QueryUnescape v).getD v := by
  unfold headerValue
  cases QueryUnescape v <;> rfl

theorem Atoi_ne_nil (v : Str) (n : Int) (h : Atoi v = .ok n) : v ≠ [] := by
  intro hv
  subst hv
  have h0 : Atoi [] = .error .atoiInvalid := by decide
  rw [h0] at h
  cases h

theorem readContent_exact (hdr : MIMEHeader) (body rest : Str)
    (h : Atoi (hdr.Get "Content-Length".toList) = .ok (body.length : Int)) :
    readContent hdr (body ++ rest) = .ok body rest := by
  have hne := Atoi_ne_nil _ _ h
  simp only [readContent, hne, ne_eq, not_false_eq_true, if_true, readBody, h]
  have : ¬ ((body.length : Int) < 0) := by omega
  simp only [this, if_false, Int.toNat_ofNat, ReadFull_append]

/-- The headers of the event that `copyHeaders` fills from a header read by
`ReadMIMEHeader`: every name of the header with its first value, decoded or not. -/
theorem copyHeaders_lookup (s : Str) (b : Str) (decode : Bool) (k : Str) :
    mapGet? (copyHeaders (ReadMIMEHeader s).1 ⟨[], b⟩ decode).Header k =
      (mimeLookup (ReadMIMEHeader s).1 k).map (fun v => headerValue decode v.1) := by
  rw [copyHeaders_eq _ _ _ (ReadMIMEHeader_keys_nodup s)]
  exact mapGet?_map_header _ _ _

theorem copyHeaders_body (src : MIMEHeader) (dst : Event) (decode : Bool) :
    (copyHeaders src dst decode).Body = dst.Body := by
  induction src generalizing dst with
  | nil => rfl
  | cons p src ih =>
    have : copyHeaders (p :: src) dst decode
        = copyHeaders src { dst with Header := mapSet dst.Header p.1 (headerValue decode p.2.1) }
            decode := rfl
    rw [this, ih]

/-! ## Routing of messages by `readOne` -/

/-- C1 (counterexample): the message
`Content-Type: text/event-json\nContent-Length: 1\n\nx` has its header block and its
body read without error, yet `readOne` sends no event on `evt` and does not return
`true`: it sends the decoding error on `err` and returns `false`. -/
theorem readOne_undecodable_json_not_routed :
    (ReadMIMEHeader exUndecodableJson).2.1 = none ∧
    readContent (ReadMIMEHeader exUndecodableJson).1 (ReadMIMEHeader exUndecodableJson).2.2
      = .ok "x".toList [] ∧
    (ReadMIMEHeader exUndecodableJson).1.Get "Content-Type".toList = "text/event-json".toList ∧
    (readOne exUndecodableJson).1 = .failed .jsonError ∧
    ¬ (∃ ev, (readOne exUndecodableJson).1.published = some (.evt, ev)) ∧
    (readOne exUndecodableJson).1.returned ≠ some true := by
  refine ⟨by decide, by decide, by decide, by decide, ?_, by decide⟩
  rintro ⟨ev, h⟩
  have h0 : (readOne exUndecodableJson).1.published = none := by decide
  rw [h0] at h
  cases h

/-- C1 (amended): when the header block and the body of a message are read without
error, `readOne` routes by `Content-Type`: `auth/request` to `auth`, `api/response` to
`api`, `command/reply` with a non-empty `Reply-Text` to `cmd`, `text/event-plain`
whose body is read again without error to `evt`, `text/event-json` whose body decodes
to `evt`, each returning `true`; `text/disconnect-notice` to `evt` returning `false`;
any other content type to `evt`.  When the body of a `text/event-plain` message is not
a header block, or the body of a `text/event-json` message does not decode, the error
goes to `err` and `readOne` returns `false`. -/
theorem readOne_routes_by_content_type (input : Str) (hdr : MIMEHeader)
    (rest body rest' : Str)
    (hh : ReadMIMEHeader input = (hdr, none, rest))
    (hb : readContent hdr rest = .ok body rest') :
    (hdr.Get "Content-Type".toList = "auth/request".toList →
      (readOne input).1 = .sent .auth (copyHeaders hdr ⟨[], body⟩ false) true) ∧
    (hdr.Get "Content-Type".toList = "api/response".toList →
      (readOne input).1 = .sent .api (copyHeaders hdr ⟨[], body⟩ false) true) ∧
    (hdr.Get "Content-Type".toList = "command/reply".toList →
      hdr.Get "Reply-Text".toList ≠ [] →
      ∃ ev, (readOne input).1 = .sent .cmd ev true) ∧
    (hdr.Get "Content-Type".toList = "text/event-plain".toList →
      ∀ ih ird ib ir, ReadMIMEHeader body = (ih, none, ird) → readContent ih ird = .ok ib ir →
        (readOne input).1 = .sent .evt (copyHeaders ih ⟨[], ib⟩ true) true) ∧
    (hdr.Get "Content-Type".toList = "text/event-plain".toList →
      ∀ ih e ird, ReadMIMEHeader body = (ih, some e, ird) → (readOne input).1 = .failed e) ∧
    (hdr.Get "Content-Type".toList = "text/event-json".toList →
      ∀ tmp, jsonUnmarshal body = .ok tmp → ∃ ev, (readOne input).1 = .sent .evt ev true) ∧
    (hdr.Get "Content-Type".toList = "text/event-json".toList →
      ∀ e, jsonUnmarshal body = .error e → (readOne input).1 = .failed e) ∧
    (hdr.Get "Content-Type".toList = "text/disconnect-notice".toList →
      (readOne input).1 = .sent .evt (copyHeaders hdr ⟨[], body⟩ false) false) ∧
    (hdr.Get "Content-Type".toList ∉
        ["command/reply".toList, "api/response".toList, "auth/request".toList,
          "text/event-plain".toList, "text/event-json".toList,
          "text/disconnect-notice".toList] →
      (readOne input).1.published = some (.evt, copyHeaders hdr ⟨[], body⟩ false)) := by
  refine ⟨?_, ?_, ?_, ?_, ?_, ?_, ?_, ?_, ?_⟩
  · intro hct
    rw [readOne_auth input hdr rest body rest' hh hb hct]
  · intro hct
    rw [readOne_api input hdr rest body rest' hh hb hct]
  · intro hct hrt
    cases hr : hdr.Get "Reply-Text".toList with
    | nil => exact absurd hr hrt
    | cons c r => exact ⟨_, by rw [readOne_cmd input hdr rest body rest' c r hh hb hct hr]⟩
  · intro hct ih ird ib ir hi hib
    rw [readOne_plain input hdr rest body rest' hh hb hct, readEventPlain_ok body ih ird ib ir hi hib]
  · intro hct ih e ird hi
    rw [readOne_plain input hdr rest body rest' hh hb hct, readEventPlain_header_error body ih e ird hi]
  · intro hct tmp hj
    rw [readOne_json input hdr rest body rest' hh hb hct, readEventJson_ok body tmp hj]
    by_cases hbody : mapGet tmp "_body".toList = []
    · exact ⟨⟨tmp, []⟩, by simp only [hbody, ne_eq, not_true_eq_false, if_false]⟩
    · exact ⟨⟨mapDelete tmp "_body".toList, mapGet tmp "_body".toList⟩,
        by simp only [hbody, ne_eq, not_false_eq_true, if_true]⟩
  · intro hct e hj
    rw [readOne_json input hdr rest body rest' hh hb hct, readEventJson_error body e hj]
  · intro hct
    rw [readOne_disconnect input hdr rest body rest' hh hb hct]
  · intro hct
    rw [readOne_other input hdr rest body rest' hh hb hct]
    rfl

/-- C1 (witness): the theorem applied to an `auth/request` message. -/
theorem readOne_routes_by_content_type_witness :
    ReadMIMEHeader exAuthRequest
      = ([("Content-Type".toList, "auth/request".toList, [])], none, "Content-Type".toList) ∧
    readContent [("Content-Type".toList, "auth/request".toList, [])] "Content-Type".toList
      = .ok [] "Content-Type".toList ∧
    (readOne exAuthRequest).1
      = .sent .auth ⟨[("Content-Type".toList, "auth/request".toList)], []⟩ true :=
  ⟨by decide, by decide,
    (readOne_routes_by_content_type exAuthRequest
      [("Content-Type".toList, "auth/request".toList, [])] "Content-Type".toList []
      "Content-Type".toList (by decide) (by decide)).1 (by decide)⟩

/-! ## Plain and JSON events -/

/-- C3: for a `text/event-plain` frame whose outer `Content-Length` is the length of
its body, the body being a header block followed by an inner body of exactly the
inner `Content-Length` bytes when the block has one, `readOne` sends on `evt` one
event and returns `true`.  The event's headers are the headers of the inner block:
each name the reader found there carries its value URL-decoded, the raw value when
decoding fails, and no other name is present (so no header of the outer frame is).  The
event's body is the inner body, empty when the inner block has no `Content-Length`. -/
theorem readOne_event_plain (input : Str) (hdr : MIMEHeader) (body rest : Str)
    (ih : MIMEHeader) (ibody : Str)
    (hh : ReadMIMEHeader input = (hdr, none, body ++ rest))
    (hct : hdr.Get "Content-Type".toList = "text/event-plain".toList)
    (hcl : Atoi (hdr.Get "Content-Length".toList) = .ok (body.length : Int))
    (hi : ReadMIMEHeader body = (ih, none, ibody))
    (hicl : ih.Get "Content-Length".toList ≠ [] →
      Atoi (ih.Get "Content-Length".toList) = .ok (ibody.length : Int)) :
    ∃ ev, readOne input = (.sent .evt ev true, rest) ∧
      ev.Body = (if ih.Get "Content-Length".toList = [] then [] else ibody) ∧
      (∀ k v vs, mimeLookup ih k = some (v, vs) →
        mapGet? ev.Header k = some ((QueryUnescape v).getD v)) ∧
      (∀ k, mimeLookup ih k = none → mapGet? ev.Header k = none) := by
  have hb := readContent_exact hdr body rest hcl
  have hnd : (ih.map Prod.fst).Nodup := by
    have := ReadMIMEHeader_keys_nodup body
    rw [hi] at this
    exact this
  have hib : ∃ ir, readContent ih ibody
      = .ok (if ih.Get "Content-Length".toList = [] then [] else ibody) ir := by
    by_cases hne : ih.Get "Content-Length".toList = []
    · exact ⟨ibody, by simp only [readContent, hne, ne_eq, not_true_eq_false, if_false, if_true]⟩
    · refine ⟨[], ?_⟩
      have := readContent_exact ih ibody [] (hicl hne)
      simpa only [hne, if_false, List.append_nil] using this
  obtain ⟨ir, hib⟩ := hib
  refine ⟨copyHeaders ih ⟨[], if ih.Get "Content-Length".toList = [] then [] else ibody⟩ true,
    ?_, ?_, ?_, ?_⟩
  · rw [readOne_plain input hdr (body ++ rest) body rest hh hb hct,
      readEventPlain_ok body ih ibody _ ir hi hib]
  · rw [copyHeaders_eq _ _ _ hnd]
  · intro k v vs hk
    rw [copyHeaders_eq _ _ _ hnd]
    simp only
    rw [mapGet?_map_header, hk, Option.map_some', headerValue_true]
  · intro k hk
    rw [copyHeaders_eq _ _ _ hnd]
    simp only
    rw [mapGet?_map_header, hk, Option.map_none']

/-- C3 (witness): the theorem applied to a frame with the inner headers `Event-Name`,
`Up-Time` (whose value does not decode) and `Content-Length: 2`, and the inner body
`HI`. -/
theorem readOne_event_plain_witness :
    ∃ ev, readOne exPlainFrame = (.sent .evt ev true, "Content".toList) ∧
      ev.Body = "HI".toList ∧
      (∀ k v vs, mimeLookup (ReadMIMEHeader exPlainBody).1 k = some (v, vs) →
        mapGet? ev.Header k = some ((QueryUnescape v).getD v)) ∧
      (∀ k, mimeLookup (ReadMIMEHeader exPlainBody).1 k = none → mapGet? ev.Header k = none) :=
  readOne_event_plain exPlainFrame (ReadMIMEHeader exPlainFrame).1 exPlainBody
    "Content".toList (ReadMIMEHeader exPlainBody).1 "HI".toList
    (by decide) (by decide) (by decide) (by decide) (fun _ => by decide)

/-- C4: for a `text/event-json` message whose body decodes as a JSON object of strings,
`readOne` sends on `evt` an event and returns `true`.  When the object has a member
`_body` with a non-empty value, the event's body is that value and the event's headers
are the object's other members: `_body` is absent and every other name has the
object's value.  Otherwise the event's body is empty and the event's headers are all
the members of the object.  The names are those of the object, unchanged. -/
theorem readOne_event_json (input : Str) (hdr : MIMEHeader) (rest body rest' : Str)
    (tmp : GoMap)
    (hh : ReadMIMEHeader input = (hdr, none, rest))
    (hb : readContent hdr rest = .ok body rest')
    (hct : hdr.Get "Content-Type".toList = "text/event-json".toList)
    (hj : jsonUnmarshal body = .ok tmp) :
    ∃ ev, readOne input = (.sent .evt ev true, rest') ∧
      (∀ v, mapGet? tmp "_body".toList = some v → v ≠ [] →
        ev.Body = v ∧ mapGet? ev.Header "_body".toList = none ∧
        ∀ k, k ≠ "_body".toList → mapGet? ev.Header k = mapGet? tmp k) ∧
      ((mapGet? tmp "_body".toList = none ∨ mapGet? tmp "_body".toList = some []) →
        ev.Body = [] ∧ ev.Header = tmp) := by
  rw [readOne_json input hdr rest body rest' hh hb hct, readEventJson_ok body tmp hj]
  by_cases hbody : mapGet tmp "_body".toList = []
  · refine ⟨⟨tmp, []⟩, by simp only [hbody, ne_eq, not_true_eq_false, if_false], ?_, ?_⟩
    · intro v hv hne
      simp only [mapGet, hv, Option.getD_some] at hbody
      exact absurd hbody hne
    · intro _
      exact ⟨rfl, rfl⟩
  · refine ⟨⟨mapDelete tmp "_body".toList, mapGet tmp "_body".toList⟩,
      by simp only [hbody, ne_eq, not_false_eq_true, if_true], ?_, ?_⟩
    · intro v hv _
      refine ⟨by simp only [mapGet, hv, Option.getD_some], ?_, ?_⟩
      · simp only [mapGet?_mapDelete, if_true]
      · intro k hk
        simp only [mapGet?_mapDelete, hk, if_false]
    · intro h
      exfalso
      apply hbody
      rcases h with h | h <;> simp only [mapGet, h, Option.getD_none, Option.getD_some]

/-- C4 (witness): the theorem applied to the message whose body is
`{"Event-Name":"API","_body":"sofia status output"}`; the event has the body
`sofia status output` and the single header `Event-Name: API`. -/
theorem readOne_event_json_witness :
    ∃ ev, readOne exJsonEvent = (.sent .evt ev true, []) ∧
      (∀ v, mapGet? [("Event-Name".toList, "API".toList),
            ("_body".toList, "sofia status output".toList)] "_body".toList = some v → v ≠ [] →
        ev.Body = v ∧ mapGet? ev.Header "_body".toList = none ∧
        ∀ k, k ≠ "_body".toList → mapGet? ev.Header k =
          mapGet? [("Event-Name".toList, "API".toList),
            ("_body".toList, "sofia status output".toList)] k) ∧
      ((mapGet? [("Event-Name".toList, "API".toList),
            ("_body".toList, "sofia status output".toList)] "_body".toList = none ∨
          mapGet? [("Event-Name".toList, "API".toList),
            ("_body".toList, "sofia status output".toList)] "_body".toList = some []) →
        ev.Body = [] ∧ ev.Header = [("Event-Name".toList, "API".toList),
            ("_body".toList, "sofia status output".toList)]) :=
  readOne_event_json exJsonEvent (ReadMIMEHeader exJsonEvent).1 exJsonBody exJsonBody []
    [("Event-Name".toList, "API".toList), ("_body".toList, "sofia status output".toList)]
    (by decide) (by decide) (by decide) (by decide)

/-! ## URL decoding of header values -/

/-- C5: the header values of the event that `readOne` sends are URL-decoded (the raw
value kept when decoding fails) when the message is `text/event-plain` (the headers
being those of the inner block) or `command/reply` with a `Reply-Text` that starts
with `%`.  For `command/reply` with a `Reply-Text` that starts otherwise, and for
`api/response`, `auth/request`, `text/disconnect-notice` and every content type that
`readOne` does not know, each header value is stored as the reader returned it.  For
`text/event-json` the header values are the values of the object's members. -/
theorem readOne_url_decoding_policy (input : Str) (rest body rest' : Str)
    (hh : ReadMIMEHeader input = ((ReadMIMEHeader input).1, none, rest))
    (hb : readContent (ReadMIMEHeader input).1 rest = .ok body rest') :
    ((ReadMIMEHeader input).1.Get "Content-Type".toList = "text/event-plain".toList →
      ∀ ird ib ir, ReadMIMEHeader body = ((ReadMIMEHeader body).1, none, ird) →
        readContent (ReadMIMEHeader body).1 ird = .ok ib ir →
        ∃ ev, (readOne input).1.published = some (.evt, ev) ∧
          ∀ k v vs, mimeLookup (ReadMIMEHeader body).1 k = some (v, vs) →
            mapGet? ev.Header k = some ((QueryUnescape v).getD v)) ∧
    ((ReadMIMEHeader input).1.Get "Content-Type".toList = "command/reply".toList →
      ∀ r, (ReadMIMEHeader input).1.Get "Reply-Text".toList = '%' :: r →
        ∃ ev, (readOne input).1.published = some (.cmd, ev) ∧
          ∀ k v vs, mimeLookup (ReadMIMEHeader input).1 k = some (v, vs) →
            mapGet? ev.Header k = some ((QueryUnescape v).getD v)) ∧
    ((ReadMIMEHeader input).1.Get "Content-Type".toList = "command/reply".toList →
      ∀ c r, (ReadMIMEHeader input).1.Get "Reply-Text".toList = c :: r → c ≠ '%' →
        ∃ ev, (readOne input).1.published = some (.cmd, ev) ∧
          ∀ k v vs, mimeLookup (ReadMIMEHeader input).1 k = some (v, vs) →
            mapGet? ev.Header k = some v) ∧
    ((ReadMIMEHeader input).1.Get "Content-Type".toList ∉
        ["command/reply".toList, "text/event-plain".toList, "text/event-json".toList] →
      ∃ c ev, (readOne input).1.published = some (c, ev) ∧
        ∀ k v vs, mimeLookup (ReadMIMEHeader input).1 k = some (v, vs) →
          mapGet? ev.Header k = some v) ∧
    ((ReadMIMEHeader input).1.Get "Content-Type".toList = "text/event-json".toList →
      ∀ tmp, jsonUnmarshal body = .ok tmp →
        ∃ ev, (readOne input).1.published = some (.evt, ev) ∧
          ∀ k, k ≠ "_body".toList → mapGet? ev.Header k = mapGet? tmp k) := by
  have raw : ∀ k v vs, mimeLookup (ReadMIMEHeader input).1 k = some (v, vs) →
      mapGet? (copyHeaders (ReadMIMEHeader input).1 ⟨[], body⟩ false).Header k = some v := by
    intro k v vs hk
    rw [copyHeaders_lookup, hk]
    rfl
  refine ⟨?_, ?_, ?_, ?_, ?_⟩
  · intro hct ird ib ir hi hib
    refine ⟨copyHeaders (ReadMIMEHeader body).1 ⟨[], ib⟩ true, ?_, ?_⟩
    · rw [readOne_plain input _ rest body rest' hh hb hct, readEventPlain_ok body _ ird ib ir hi hib]
      rfl
    · intro k v vs hk
      rw [copyHeaders_lookup, hk, Option.map_some', headerValue_true]
  · intro hct r hr
    refine ⟨copyHeaders (ReadMIMEHeader input).1 ⟨[], body⟩ true, ?_, ?_⟩
    · rw [readOne_cmd input _ rest body rest' '%' r hh hb hct hr]
      rfl
    · intro k v vs hk
      rw [copyHeaders_lookup, hk, Option.map_some', headerValue_true]
  · intro hct c r hr hc
    refine ⟨copyHeaders (ReadMIMEHeader input).1 ⟨[], body⟩ false, ?_, raw⟩
    rw [readOne_cmd input _ rest body rest' c r hh hb hct hr]
    simp only [hc, decide_False]
    rfl
  · intro hct
    simp only [List.mem_cons, List.mem_singleton, not_or, List.not_mem_nil, or_false] at hct
    obtain ⟨h1, h2, h3⟩ := hct
    by_cases ha : (ReadMIMEHeader input).1.Get "Content-Type".toList = "api/response".toList
    · exact ⟨.api, _, by rw [readOne_api input _ rest body rest' hh hb ha]; rfl, raw⟩
    by_cases hb' : (ReadMIMEHeader input).1.Get "Content-Type".toList = "auth/request".toList
    · exact ⟨.auth, _, by rw [readOne_auth input _ rest body rest' hh hb hb']; rfl, raw⟩
    by_cases hd : (ReadMIMEHeader input).1.Get "Content-Type".toList
        = "text/disconnect-notice".toList
    · exact ⟨.evt, _, by rw [readOne_disconnect input _ rest body rest' hh hb hd]; rfl, raw⟩
    · refine ⟨.evt, _, ?_, raw⟩
      rw [readOne_other input _ rest body rest' hh hb]
      · rfl
      · simp only [List.mem_cons, List.mem_singleton, not_or, List.not_mem_nil, or_false]
        exact ⟨h1, ha, hb', h2, h3, hd⟩
  · intro hct tmp hj
    rw [readOne_json input _ rest body rest' hh hb hct, readEventJson_ok body tmp hj]
    by_cases hbody : mapGet tmp "_body".toList = []
    · refine ⟨⟨tmp, []⟩, ?_, fun k _ => rfl⟩
      simp only [hbody, ne_eq, not_true_eq_false, if_false]
      rfl
    · refine ⟨⟨mapDelete tmp "_body".toList, mapGet tmp "_body".toList⟩, ?_, ?_⟩
      · simp only [hbody, ne_eq, not_false_eq_true, if_true]
        rfl
      · intro k hk
        simp only [mapGet?_mapDelete, hk, if_false]

/-- C5 (witness): the theorem applied to a `command/reply` message with the header
`Reply-Text: %2BOK a+b`, which is stored as `+OK a b`. -/
theorem readOne_url_decoding_policy_witness :
    (ReadMIMEHeader exEncodedReply).1.Get "Reply-Text".toList = "%2BOK a+b".toList ∧
    ∃ ev, (readOne exEncodedReply).1.published = some (.cmd, ev) ∧
      ∀ k v vs, mimeLookup (ReadMIMEHeader exEncodedReply).1 k = some (v, vs) →
        mapGet? ev.Header k = some ((QueryUnescape v).getD v) :=
  ⟨by decide,
    (readOne_url_decoding_policy exEncodedReply [] [] [] (by decide) (by decide)).2.1
      (by decide) "2BOK a+b".toList (by decide)⟩

/-! ## Send primitives -/

theorem await_conn (e : EventSocket) (want : Chan → Bool) : (e.await want).2.conn = e.conn := by
  unfold EventSocket.await
  split <;> rfl

theorem ProtocolSend_conn (e : EventSocket) (command args : Str) :
    (e.ProtocolSend command args).2.conn =
      e.conn.map (fun c => c.write (command ++ " ".toList ++ args ++ "\r\n\r\n".toList)) := by
  unfold EventSocket.ProtocolSend
  cases hc : e.conn with
  | none => simp [EventSocket.Connected, hc]
  | some c => simp [EventSocket.Connected, hc, await_conn, EventSocket.writeCommand]

theorem ProtocolSendMsg_conn (e : EventSocket) (name args uuid : Str) (Lock : Bool) (loop : Int)
    (asyn : Bool) :
    (e.ProtocolSendMsg name args uuid Lock loop asyn).2.conn =
      e.conn.map (fun c =>
        c.write (sendMsgText name args uuid Lock loop asyn ++ "\r\n\r\n".toList)) := by
  unfold EventSocket.ProtocolSendMsg
  cases hc : e.conn with
  | none => simp [EventSocket.Connected, hc]
  | some c => simp [EventSocket.Connected, hc, await_conn, EventSocket.writeCommand]

theorem Conn.write_written (c : Conn) (s : Str) (h : c.closed = false) :
    (c.write s).written = c.written ++ s := by
  simp [Conn.write, h]

theorem Conn.write_closed (c : Conn) (s : Str) : (c.write s).closed = c.closed := by
  unfold Conn.write
  split <;> simp_all

/-- C2: on a session whose connection is present and open, `ProtocolSendMsg` appends to
what was written exactly `sendmsg {uuid}\ncall-command: execute\n`,
`execute-app-name: {name}\n`, then `event-lock: true\n` if and only if `Lock`, then
`loops: {loop}\n` if and only if `loop > 0`, then `async: true\n` if and only if `asyn`,
then, if and only if `args` is not empty,
`content-type: text/plain\ncontent-length: {len(args)}\n\n{args}\n`, and at the end
`\r\n\r\n`; nothing else is written. -/
theorem ProtocolSendMsg_writes (e : EventSocket) (c : Conn) (name args uuid : Str)
    (Lock : Bool) (loop : Int) (asyn : Bool)
    (hc : e.conn = some c) (ho : c.closed = false) :
    (e.ProtocolSendMsg name args uuid Lock loop asyn).2.conn.map Conn.written =
      some (c.written ++
        ("sendmsg ".toList ++ uuid ++ "\ncall-command: execute\n".toList
          ++ "execute-app-name: ".toList ++ name ++ "\n".toList
          ++ (if Lock then "event-lock: true\n".toList else [])
          ++ (if 0 < loop then "loops: ".toList ++ Nat.toDigits 10 loop.toNat ++ "\n".toList
              else [])
          ++ (if asyn then "async: true\n".toList else [])
          ++ (if args ≠ [] then
                "content-type: text/plain\ncontent-length: ".toList
                  ++ Nat.toDigits 10 args.length ++ "\n\n".toList ++ args ++ "\n".toList
              else [])
          ++ "\r\n\r\n".toList)) := by
  rw [ProtocolSendMsg_conn, hc]
  simp only [Option.map_some', Conn.write_written _ _ ho, Option.some.injEq,
    List.append_cancel_left_eq]
  have hlen : fmtInt (args.length : Int) = Nat.toDigits 10 args.length := by
    unfold fmtInt
    have : ¬ ((args.length : Int) < 0) := by omega
    simp only [this, if_false, Int.toNat_ofNat]
  have hloop : 0 < loop → fmtInt loop = Nat.toDigits 10 loop.toNat := by
    intro h
    unfold fmtInt
    have : ¬ (loop < 0) := by omega
    simp only [this, if_false]
  unfold sendMsgText
  by_cases h1 : Lock <;> by_cases h2 : 0 < loop <;> by_cases h3 : asyn <;>
    by_cases h4 : args = [] <;>
    simp [h1, h2, h3, h4, hlen, hloop, fmtBool]

/-- C2 (witness): `playback` of `a.wav` on the channel `u1` with lock and two loops
writes `sendmsg u1`, `call-command: execute`, `execute-app-name: playback`,
`event-lock: true`, `loops: 2`, the content block of length 5 and the terminator. -/
theorem ProtocolSendMsg_writes_witness :
    exSocket.conn = some ⟨[], [], false⟩ ∧
    (exSocket.ProtocolSendMsg "playback".toList "a.wav".toList "u1".toList true 2 false).2.conn.map
        Conn.written =
      some ("sendmsg u1\ncall-command: execute\nexecute-app-name: playback\nevent-lock: true\n"
        ++ "loops: 2\ncontent-type: text/plain\ncontent-length: 5\n\na.wav\n\r\n\r\n").toList :=
  ⟨by decide,
    (ProtocolSendMsg_writes exSocket ⟨[], [], false⟩ "playback".toList "a.wav".toList
      "u1".toList true 2 false (by decide) (by decide)).trans (by decide)⟩

/-! ## Connection establishment -/

theorem subscribe_snd (e : EventSocket) (isEventJson : Bool) (cmd : Str) :
    (subscribe e isEventJson cmd).2
      = (if isEventJson then e.EventJson cmd else e.EventPlain cmd).2 := by
  unfold subscribe
  generalize (if isEventJson then e.EventJson cmd else e.EventPlain cmd) = p
  obtain ⟨r, e'⟩ := p
  cases r <;> simp only [filterFailedTest, Reply.event, Reply.error]

theorem subscribe_conn (e : EventSocket) (isEventJson : Bool) (cmd : Str) :
    (subscribe e isEventJson cmd).2.conn =
      e.conn.map (fun c => c.write
        ((if isEventJson then "event json".toList else "event plain".toList)
          ++ " ".toList ++ cmd ++ "\r\n\r\n".toList)) := by
  rw [subscribe_snd]
  cases isEventJson
  · simp only [Bool.false_eq_true, if_false, EventSocket.EventPlain, ProtocolSend_conn]
  · simp only [if_true, EventSocket.EventJson, ProtocolSend_conn]

/-- The subscription step never returns the error `Event filter failed`: with a reply
on `cmd` or `api` the error of `ProtocolSend` is `nil` and the test is false, whatever
the reply says. -/
theorem subscribe_result (e : EventSocket) (isEventJson : Bool) (cmd : Str) :
    (subscribe e isEventJson cmd).1 = .returned none ∨
    (subscribe e isEventJson cmd).1 = .blocked ∨
    (subscribe e isEventJson cmd).1 = .crashed := by
  unfold subscribe
  generalize (if isEventJson then e.EventJson cmd else e.EventPlain cmd) = p
  obtain ⟨r, e'⟩ := p
  cases r <;> simp [filterFailedTest, Reply.event, Reply.error]

theorem eventsCmdLoop_ALL (names : List Str) (acc : Str) (h : "ALL".toList ∈ names) :
    eventsCmdLoop names acc = "ALL".toList := by
  induction names generalizing acc with
  | nil => cases h
  | cons ev rest ih =>
    by_cases hev : ev = "ALL".toList
    · simp only [eventsCmdLoop, hev, if_true]
    · simp only [eventsCmdLoop, hev, if_false]
      apply ih
      rcases List.mem_cons.mp h with h | h
      · exact absurd h.symm hev
      · exact h

theorem eventsCmdLoop_without_ALL (names : List Str) (acc : Str) (h : "ALL".toList ∉ names) :
    eventsCmdLoop names acc = acc ++ (names.map (fun ev => " ".toList ++ ev)).flatten := by
  induction names generalizing acc with
  | nil => simp [eventsCmdLoop]
  | cons ev rest ih =>
    have hev : ¬ ev = "ALL".toList := fun he => h (by simp [he])
    have hrest : "ALL".toList ∉ rest := fun hr => h (List.mem_cons_of_mem _ hr)
    simp only [eventsCmdLoop, hev, if_false, ih _ hrest, List.map_cons, List.flatten_cons,
      List.append_assoc]

theorem connectLoop_all_fail (dial : Nat → Option Conn) (handledEvs : List Str)
    (outerErr : Option Error) (n i : Nat) (self : InboundSocket) (h : ∀ k, dial k = none) :
    InboundSocket.connectLoop dial handledEvs outerErr n i self
      = ⟨.returned outerErr, i + n, i + n, self⟩ := by
  induction n generalizing i with
  | zero => simp [InboundSocket.connectLoop]
  | succ n ih =>
    simp only [InboundSocket.connectLoop, h i, ih (i + 1)]
    have : i + 1 + n = i + (n + 1) := by omega
    rw [this]

theorem connectLoop_success (dial : Nat → Option Conn) (handledEvs : List Str)
    (outerErr : Option Error) (j n i : Nat) (self : InboundSocket) (c : Conn)
    (hfail : ∀ k, i ≤ k → k < i + j → dial k = none) (hdial : dial (i + j) = some c)
    (hj : j < n) :
    InboundSocket.connectLoop dial handledEvs outerErr n i self
      = ⟨(self.established c handledEvs).1, i + j + 1, i + j,
          (self.established c handledEvs).2⟩ := by
  induction j generalizing n i with
  | zero =>
    obtain ⟨m, rfl⟩ : ∃ m, n = m + 1 := ⟨n - 1, by omega⟩
    simp only [Nat.add_zero] at hdial
    simp only [InboundSocket.connectLoop, hdial, Nat.add_zero]
  | succ j ih =>
    obtain ⟨m, rfl⟩ : ∃ m, n = m + 1 := ⟨n - 1, by omega⟩
    have h0 : dial i = none := hfail i (le_refl _) (by omega)
    simp only [InboundSocket.connectLoop, h0]
    have := ih m (i + 1) (fun k hk1 hk2 => hfail k (by omega) (by omega))
      (by rw [← hdial]; congr 1; omega) (by omega)
    rw [this]
    have e1 : i + 1 + j + 1 = i + (j + 1) + 1 := by omega
    have e2 : i + 1 + j = i + (j + 1) := by omega
    rw [e1, e2]

/-- When the loop body of `connect` ends with `return nil`, it has written the `auth`
command and the subscription command, in this order, and nothing else. -/
theorem established_written (self : InboundSocket) (c : Conn) (handledEvs : List Str)
    (ho : c.closed = false)
    (h : (self.established c handledEvs).1 = .returned none) :
    (self.established c handledEvs).2.written =
      some (c.written ++ ("auth ".toList ++ self.fspassword ++ "\r\n\r\n".toList)
        ++ ((if self.isEventJson then "event json".toList else "event plain".toList)
          ++ " ".toList ++ eventsCmd handledEvs ++ "\r\n\r\n".toList)) := by
  unfold InboundSocket.established at h ⊢
  dsimp only at h ⊢
  split at h
  · cases h
  · cases h
  · cases h
  · rename_i ev rest buf hrecv
    split at h
    · cases h
    · rename_i hct
      simp only [hct, if_false]
      split at h
      · cases h
      · cases h
      · cases h
      · rename_i x e2 hauth
        simp only [hauth]
        have he2 : e2.conn = some (c.write ("auth ".toList ++ self.fspassword
            ++ "\r\n\r\n".toList)) := by
          have := congrArg (fun p => p.2.conn) hauth
          simp only [EventSocket.Auth, ProtocolSend_conn] at this
          rw [← this]
          simp [EventSocket.startReader, NewEventSocket]
        simp only [InboundSocket.written, Option.some_bind, subscribe_conn, he2,
          Option.map_some']
        rw [Conn.write_written _ _ (by rw [Conn.write_closed]; exact ho),
          Conn.write_written _ _ ho]

/-- When `OutboundSocket.Connect` ends with `return nil`, it has written the `connect`
command and the subscription command, in this order, and nothing else. -/
theorem Connect_written (self : OutboundSocket) (c : Conn) (eventHandlers : HandlerTable)
    (isEventJson : Bool) (handledEvs : List Str)
    (hc : self.conn = some c) (ho : c.closed = false)
    (h : (self.Connect eventHandlers isEventJson handledEvs).1 = .returned none) :
    (self.Connect eventHandlers isEventJson handledEvs).2.written =
      some (c.written ++ "connect \r\n\r\n".toList
        ++ ((if isEventJson then "event json".toList else "event plain".toList)
          ++ " ".toList ++ eventsCmd handledEvs ++ "\r\n\r\n".toList)) := by
  unfold OutboundSocket.Connect at h ⊢
  simp only [hc] at h ⊢
  split at h
  · cases h
  · cases h
  · rename_i err e1 hcc
    have := congrArg (fun p => p.1) hcc
    simp only [EventSocket.ChannelConnect, EventSocket.ProtocolSend, EventSocket.Connected,
      EventSocket.startReader, NewEventSocket, Option.isSome_some, not_true_eq_false,
      if_false] at this
    have hne : ∀ (e : EventSocket) (want : Chan → Bool) (er : Error),
        (e.await want).1 ≠ .err er := by
      intro e want er
      unfold EventSocket.await
      split <;> simp
    exact absurd this (hne _ _ _)
  · rename_i ev e1 hcc
    simp only [hcc]
    have he1 : e1.conn = some (c.write "connect \r\n\r\n".toList) := by
      have := congrArg (fun p => p.2.conn) hcc
      simp only [EventSocket.ChannelConnect, ProtocolSend_conn] at this
      rw [← this]
      simp [EventSocket.startReader, NewEventSocket]
    simp only [OutboundSocket.written, Option.some_bind, subscribe_conn, he1, Option.map_some']
    rw [Conn.write_written _ _ (by rw [Conn.write_closed]; exact ho),
      Conn.write_written _ _ ho]

set_option maxRecDepth 100000

/-- C6 (behaviour of the code): the server asks for authentication, answers `auth` with
`Reply-Text: -ERR invalid` and accepts the subscription.  The reply to `auth` is not a
success reply, yet `connect` does not fail with `Invalid password`: it goes on to the
subscription and returns `nil`, and `NewInboundSocket` returns a session and no
error.  When the server closes after its refusal instead, `connect` waits for ever for
the reply to the subscription. -/
theorem connect_accepts_refused_password :
    (readerPubs exServerRefusesPassword).take 2 =
      [.ev .auth ⟨[("Content-Type".toList, "auth/request".toList)], []⟩,
       .ev .cmd ⟨[("Content-Type".toList, "command/reply".toList),
                  ("Reply-Text".toList, "-ERR invalid".toList)], []⟩] ∧
    Event.IsReplyTextSuccess ⟨[("Content-Type".toList, "command/reply".toList),
                  ("Reply-Text".toList, "-ERR invalid".toList)], []⟩ = false ∧
    (exInbound.connect (fun _ => some ⟨exServerRefusesPassword, [], false⟩)
        ["HEARTBEAT".toList]).result = .returned none ∧
    (exInbound.connect (fun _ => some ⟨exServerRefusesAndCloses, [], false⟩)
        ["HEARTBEAT".toList]).result = .blocked ∧
    (∃ s, NewInboundSocket "127.0.0.1:8021".toList "ClueCon".toList 3 false
        [("HEARTBEAT".toList, [0])] (fun _ => some ⟨exServerRefusesPassword, [], false⟩)
        ["HEARTBEAT".toList] = .returned (some s) none) := by
  refine ⟨by decide, by decide, by decide, by decide, ?_⟩
  have h : (exInbound.connect (fun _ => some ⟨exServerRefusesPassword, [], false⟩)
      ["HEARTBEAT".toList]).result = .returned none := by decide
  refine ⟨(exInbound.connect (fun _ => some ⟨exServerRefusesPassword, [], false⟩)
      ["HEARTBEAT".toList]).self, ?_⟩
  show (match (exInbound.connect (fun _ => some ⟨exServerRefusesPassword, [], false⟩)
      ["HEARTBEAT".toList]).result with
    | .blocked => NewInbound.blocked
    | .crashed => NewInbound.crashed
    | .returned (some err) => NewInbound.returned none (some err)
    | .returned none => NewInbound.returned (some (exInbound.connect
        (fun _ => some ⟨exServerRefusesPassword, [], false⟩) ["HEARTBEAT".toList]).self) none) = _
  rw [h]

/-- C7 (behaviour of the code): when every call of `net.Dial` fails, `connect` calls it
`reconnects` times (not at all when `reconnects` is not positive) and then returns
`nil`, not an error; `NewInboundSocket` then returns a session and no error. -/
theorem connect_all_dials_fail_returns_nil (self : InboundSocket) (handledEvs : List Str) :
    (self.connect (fun _ => none) handledEvs).result = .returned none ∧
    (self.connect (fun _ => none) handledEvs).dials = self.reconnects.toNat ∧
    (self.connect (fun _ => none) handledEvs).self = self ∧
    (∀ address password reconnects isEventJson eventHandlers,
      ∃ s, NewInboundSocket address password reconnects isEventJson eventHandlers
        (fun _ => none) handledEvs = .returned (some s) none) := by
  have key : ∀ (s : InboundSocket), s.connect (fun _ => none) handledEvs
      = ⟨.returned none, s.reconnects.toNat, s.reconnects.toNat, s⟩ := by
    intro s
    unfold InboundSocket.connect
    rw [connectLoop_all_fail _ _ _ _ _ _ (fun _ => rfl)]
    simp
  refine ⟨by rw [key], by rw [key], by rw [key], ?_⟩
  intro address password reconnects isEventJson eventHandlers
  refine ⟨InboundSocket.mk address password reconnects eventHandlers none isEventJson, ?_⟩
  unfold NewInboundSocket
  simp only [key]

/-- C8 (behaviour of the code): the reply to the subscription command is
`Reply-Text: -ERR no such event`, not a success reply, yet `InboundSocket.connect` and
`OutboundSocket.Connect` return `nil`.  The subscription step never returns
`Event filter failed`. -/
theorem connect_ignores_refused_filter :
    (readerPubs exServerRefusesFilter).drop 2 =
      [.ev .cmd ⟨[("Content-Type".toList, "command/reply".toList),
                  ("Reply-Text".toList, "-ERR no such event".toList)], []⟩, .err .eof] ∧
    Event.IsReplyTextSuccess ⟨[("Content-Type".toList, "command/reply".toList),
                  ("Reply-Text".toList, "-ERR no such event".toList)], []⟩ = false ∧
    (exInbound.connect (fun _ => some ⟨exServerRefusesFilter, [], false⟩)
        ["HEARTBEAT".toList]).result = .returned none ∧
    ((NewOutboundSocket (some ⟨exPeerRefusesFilter, [], false⟩)).Connect
        [("HEARTBEAT".toList, [0])] false ["HEARTBEAT".toList]).1 = .returned none ∧
    (∀ e isEventJson cmd, (subscribe e isEventJson cmd).1 ≠ .returned (some .filterFailed)) := by
  refine ⟨by decide, by decide, by decide, by decide, ?_⟩
  intro e isEventJson cmd h
  rcases subscribe_result e isEventJson cmd with h' | h' | h' <;> rw [h'] at h <;> cases h

/-- C9: when the handler table has the name `ALL`, then in whatever order the names are
enumerated the subscription argument is `ALL\n\n`; an `InboundSocket.connect` that
returns `nil` has written, after the `auth` command, exactly
`event plain ALL\n\n\r\n\r\n` (`event json ALL\n\n\r\n\r\n` with JSON encoding), and an
`OutboundSocket.Connect` that returns `nil` has written exactly that after the
`connect` command. -/
theorem subscription_with_ALL (table : HandlerTable) (handledEvs : List Str) (c : Conn)
    (hperm : handledEvs.Perm table.names) (hall : "ALL".toList ∈ table.names)
    (ho : c.closed = false) :
    eventsCmd handledEvs = "ALL\n\n".toList ∧
    (∀ (self : InboundSocket) (dial : Nat → Option Conn) (j : Nat),
      self.eventHandlers = table → (j : Int) < self.reconnects →
      (∀ k, k < j → dial k = none) → dial j = some c →
      (self.connect dial handledEvs).result = .returned none →
      (self.connect dial handledEvs).self.written =
        some (c.written ++ ("auth ".toList ++ self.fspassword ++ "\r\n\r\n".toList)
          ++ (if self.isEventJson then "event json ALL\n\n\r\n\r\n".toList
              else "event plain ALL\n\n\r\n\r\n".toList))) ∧
    (∀ (self : OutboundSocket) (isEventJson : Bool),
      self.conn = some c →
      (self.Connect table isEventJson handledEvs).1 = .returned none →
      (self.Connect table isEventJson handledEvs).2.written =
        some (c.written ++ "connect \r\n\r\n".toList
          ++ (if isEventJson then "event json ALL\n\n\r\n\r\n".toList
              else "event plain ALL\n\n\r\n\r\n".toList))) := by
  have hmem : "ALL".toList ∈ handledEvs := hperm.mem_iff.mpr hall
  have hcmd : eventsCmd handledEvs = "ALL\n\n".toList := by
    unfold eventsCmd
    rw [eventsCmdLoop_ALL handledEvs [] hmem]
    rfl
  refine ⟨hcmd, ?_, ?_⟩
  · intro self dial j _ hj hfail hdial hres
    have hrun : self.connect dial handledEvs
        = ⟨(self.established c handledEvs).1, 0 + j + 1, 0 + j,
            (self.established c handledEvs).2⟩ := by
      unfold InboundSocket.connect
      exact connectLoop_success dial handledEvs none j _ 0 self c
        (fun k _ hk => hfail k (by omega)) (by simpa using hdial) (by omega)
    rw [hrun] at hres ⊢
    rw [established_written self c handledEvs ho hres, hcmd]
    cases self.isEventJson <;> rfl
  · intro self isEventJson hc hres
    rw [Connect_written self c table isEventJson handledEvs hc ho hres, hcmd]
    cases isEventJson <;> rfl

/-- C9 (witness): with handlers for `HEARTBEAT` and `ALL`, enumerated as `ALL`,
`HEARTBEAT`, the argument is `ALL\n\n` and a successful inbound `connect` has written
`auth ClueCon\r\n\r\n` and `event plain ALL\n\n\r\n\r\n`. -/
theorem subscription_with_ALL_witness :
    ["ALL".toList, "HEARTBEAT".toList].Perm exInboundAll.eventHandlers.names ∧
    "ALL".toList ∈ exInboundAll.eventHandlers.names ∧
    eventsCmd ["ALL".toList, "HEARTBEAT".toList] = "ALL\n\n".toList ∧
    (exInboundAll.connect (fun _ => some ⟨exServerAccepts, [], false⟩)
        ["ALL".toList, "HEARTBEAT".toList]).self.written =
      some "auth ClueCon\r\n\r\nevent plain ALL\n\n\r\n\r\n".toList :=
  ⟨List.Perm.swap _ _ _, by decide,
    (subscription_with_ALL exInboundAll.eventHandlers ["ALL".toList, "HEARTBEAT".toList]
      ⟨exServerAccepts, [], false⟩ (List.Perm.swap _ _ _) (by decide) rfl).1,
    ((subscription_with_ALL exInboundAll.eventHandlers ["ALL".toList, "HEARTBEAT".toList]
      ⟨exServerAccepts, [], false⟩ (List.Perm.swap _ _ _) (by decide) rfl).2.1
      exInboundAll (fun _ => some ⟨exServerAccepts, [], false⟩) 0 rfl (by decide)
      (fun k hk => absurd hk (Nat.not_lt_zero k)) rfl (by decide)).trans (by decide)⟩

/-- C10 (behaviour of the code): with the single handler name `HEARTBEAT` and plain
encoding the subscription argument is ` HEARTBEAT\n\n`, with a space in front, and the
command written is `event plain  HEARTBEAT\n\n\r\n\r\n`, with two spaces after `plain`,
not `event plain HEARTBEAT\n\n\r\n\r\n`.  In general, without `ALL`, every name is
preceded by a space. -/
theorem connect_heartbeat_writes_two_spaces :
    eventsCmd ["HEARTBEAT".toList] = " HEARTBEAT\n\n".toList ∧
    (exInbound.connect (fun _ => some ⟨exServerAccepts, [], false⟩)
        ["HEARTBEAT".toList]).result = .returned none ∧
    (exInbound.connect (fun _ => some ⟨exServerAccepts, [], false⟩)
        ["HEARTBEAT".toList]).self.written =
      some "auth ClueCon\r\n\r\nevent plain  HEARTBEAT\n\n\r\n\r\n".toList ∧
    (exInbound.connect (fun _ => some ⟨exServerAccepts, [], false⟩)
        ["HEARTBEAT".toList]).self.written ≠
      some "auth ClueCon\r\n\r\nevent plain HEARTBEAT\n\n\r\n\r\n".toList ∧
    (∀ names : List Str, "ALL".toList ∉ names →
      eventsCmd names = (names.map (fun ev => " ".toList ++ ev)).flatten ++ "\n\n".toList) := by
  refine ⟨by decide, by decide, by decide, by decide, ?_⟩
  intro names h
  unfold eventsCmd
  rw [eventsCmdLoop_without_ALL names [] h]
  rfl

/-! ## Dispatch of events -/

/-- C11 (behaviour of the code): with the handlers 0 and 1 registered for `HEARTBEAT`,
`dispatchEvent` of a `HEARTBEAT` event starts the handler 0 only: the loop returns
after its first pass.  For every table and event it starts at most one invocation,
the first handler of the list when there is one.  Without `Event-Name`, with an empty
one, or with a name that has no list, it starts none. -/
theorem dispatchEvent_starts_first_handler_only :
    exDispatchSocket.dispatchEvent (some exHeartbeat) = some [(0, exHeartbeat)] ∧
    handlersGet? exDispatchSocket.eventHandlers "HEARTBEAT".toList = some [0, 1] ∧
    (∀ (self : EventSocket) (ev : Event) (started : List (Handler × Event)),
      self.dispatchEvent (some ev) = some started → started.length ≤ 1) ∧
    (∀ (self : EventSocket) (ev : Event) (h : Handler) (hs : List Handler),
      ev.GetHeader "Event-Name".toList [] ≠ [] →
      handlersGet? self.eventHandlers (ev.GetHeader "Event-Name".toList []) = some (h :: hs) →
      self.dispatchEvent (some ev) = some [(h, ev)]) ∧
    (∀ (self : EventSocket) (ev : Event),
      (ev.GetHeader "Event-Name".toList [] = [] ∨
        handlersGet? self.eventHandlers (ev.GetHeader "Event-Name".toList []) = none) →
      self.dispatchEvent (some ev) = some []) := by
  refine ⟨by decide, by decide, ?_, ?_, ?_⟩
  · intro self ev started h
    unfold EventSocket.dispatchEvent at h
    simp only at h
    split at h
    · split at h
      · rename_i handlers _
        cases handlers <;> simp [dispatchLoop] at h <;> subst h <;> simp
      · simp at h; subst h; simp
    · simp at h; subst h; simp
  · intro self ev h hs hne hget
    simp only [EventSocket.dispatchEvent, hne, ne_eq, not_false_eq_true, if_true, hget,
      dispatchLoop]
  · intro self ev h
    rcases h with h | h
    · simp only [EventSocket.dispatchEvent, h, ne_eq, not_true_eq_false, if_false]
    · by_cases hne : ev.GetHeader "Event-Name".toList [] = []
      · simp only [EventSocket.dispatchEvent, hne, ne_eq, not_true_eq_false, if_false]
      · simp only [EventSocket.dispatchEvent, hne, ne_eq, not_false_eq_true, if_true, h]

/-! ## Messages that `readOne` does not survive -/

theorem readOne_cmd_without_reply_text (input : Str) (hdr : MIMEHeader)
    (rest body rest' : Str)
    (hh : ReadMIMEHeader input = (hdr, none, rest))
    (hb : readContent hdr rest = .ok body rest')
    (hct : hdr.Get "Content-Type".toList = "command/reply".toList)
    (hr : hdr.Get "Reply-Text".toList = []) :
    readOne input = (.panicked, rest') := by
  simp only [readOne, hh, hb, hct, hr]
  rfl

/-- C12 (behaviour of the code): the message `Content-Type: command/reply\n\n` has its
header block read without error and no body to read, yet `readOne` sends nothing on any
channel and does not return: the expression `reply[0]` on the empty `Reply-Text` is a
run-time panic.  The same holds for every `command/reply` message without
`Reply-Text`. -/
theorem readOne_reply_without_text_panics :
    ReadMIMEHeader exReplyWithoutText
      = ([("Content-Type".toList, "command/reply".toList, [])], none, []) ∧
    readContent [("Content-Type".toList, "command/reply".toList, [])] [] = .ok [] [] ∧
    (readOne exReplyWithoutText).1 = .panicked ∧
    (readOne exReplyWithoutText).1.published = none ∧
    readerPubs exReplyWithoutText = [.panic] ∧
    (∀ (input : Str) (hdr : MIMEHeader) (rest body rest' : Str),
      ReadMIMEHeader input = (hdr, none, rest) → readContent hdr rest = .ok body rest' →
      hdr.Get "Content-Type".toList = "command/reply".toList →
      hdr.Get "Reply-Text".toList = [] →
      (readOne input).1.published = none ∧ (readOne input).1.returned = none) := by
  refine ⟨by decide, by decide, by decide, by decide, by decide, ?_⟩
  intro input hdr rest body rest' hh hb hct hr
  rw [readOne_cmd_without_reply_text input hdr rest body rest' hh hb hct hr]
  exact ⟨rfl, rfl⟩

theorem readBody_atoi_error (v rd : Str) (e : Error) (h : Atoi v = .error e) :
    readBody v rd = .err e := by
  simp only [readBody, h]

theorem readBody_negative (v rd : Str) (n : Int) (h : Atoi v = .ok n) (hn : n < 0) :
    readBody v rd = .panic := by
  simp only [readBody, h, hn, if_true]

/-- C13 (behaviour of the code): a `Content-Length` that `strconv.Atoi` refuses, such
as `abc`, makes `readOne` send the error on `err`, no event, and return `false`, in the
outer frame and inside a `text/event-plain` body alike.  A negative `Content-Length`
such as `-1` is accepted by `strconv.Atoi`, and `make([]byte, length)` panics:
`readOne` sends nothing, neither an error nor an event, and does not return. -/
theorem readOne_negative_content_length_panics :
    (ReadMIMEHeader exNegativeLength).1.Get "Content-Length".toList = "-1".toList ∧
    (readOne exNegativeLength).1 = .panicked ∧
    readerPubs exNegativeLength = [.panic] ∧
    (readOne exInnerNegativeLength).1 = .panicked ∧
    (readOne exTextLength).1 = .failed .atoiInvalid ∧
    (∀ (input : Str) (hdr : MIMEHeader) (rest : Str) (e : Error),
      ReadMIMEHeader input = (hdr, none, rest) →
      hdr.Get "Content-Length".toList ≠ [] →
      Atoi (hdr.Get "Content-Length".toList) = .error e →
      (readOne input).1 = .failed e) ∧
    (∀ (input : Str) (hdr : MIMEHeader) (rest : Str) (n : Int),
      ReadMIMEHeader input = (hdr, none, rest) →
      Atoi (hdr.Get "Content-Length".toList) = .ok n → n < 0 →
      (readOne input).1 = .panicked) ∧
    (∀ (body : Str) (ih : MIMEHeader) (ird : Str) (e : Error),
      ReadMIMEHeader body = (ih, none, ird) →
      ih.Get "Content-Length".toList ≠ [] →
      Atoi (ih.Get "Content-Length".toList) = .error e →
      readEventPlain body = .failed e) := by
  refine ⟨by decide, by decide, by decide, by decide, by decide, ?_, ?_, ?_⟩
  · intro input hdr rest e hh hne he
    simp only [readOne, hh, readContent, hne, ne_eq, not_false_eq_true, if_true,
      readBody_atoi_error _ _ _ he]
  · intro input hdr rest n hh hn hneg
    have hne := Atoi_ne_nil _ _ hn
    simp only [readOne, hh, readContent, hne, ne_eq, not_false_eq_true, if_true,
      readBody_negative _ _ _ hn hneg]
  · intro body ih ird e hi hne he
    simp only [readEventPlain, hi, readContent, hne, ne_eq, not_false_eq_true, if_true,
      readBody_atoi_error _ _ _ he]

/-! ## Sending without a connection -/

theorem Disconnect_conn_isSome (e : EventSocket) :
    e.Disconnect.conn.isSome = e.conn.isSome := by
  unfold EventSocket.Disconnect
  cases e.conn <;> rfl

theorem await_ne_err (e : EventSocket) (want : Chan → Bool) (er : Error) :
    (e.await want).1 ≠ .err er := by
  unfold EventSocket.await
  split <;> simp

theorem Conn.write_of_closed (c : Conn) (s : Str) (h : c.closed = true) : c.write s = c := by
  simp [Conn.write, h]

/-- C16 (counterexample): after `Disconnect` on a connected session, `Connected()` is
still `true`, and `ProtocolSend` and `ProtocolSendMsg` do not fail with
`Not connected`: here each returns the reply the reader had ready. -/
theorem Disconnect_leaves_Connected :
    exSocket.Connected = true ∧
    exDisconnected.conn.map Conn.closed = some true ∧
    exDisconnected.Connected = true ∧
    (exDisconnected.ProtocolSend "api".toList "status".toList).1
      = .ok ⟨[("Reply-Text".toList, "+OK".toList)], []⟩ ∧
    (exDisconnected.ProtocolSendMsg "answer".toList [] "u1".toList true 0 false).1
      = .ok ⟨[("Reply-Text".toList, "+OK".toList)], []⟩ := by
  decide

/-- C16 (amended): when the session has no socket (`conn` is nil), `ProtocolSend` and
`ProtocolSendMsg` return the `Not connected` error and no event and leave the session
as it is, so nothing is written.  `Disconnect` closes the socket and leaves it in
place: after it `Connected()` is `true` exactly when it was before, and on a session
with a closed socket `ProtocolSend` and `ProtocolSendMsg` never return an error; they
write nothing, since the write on the closed socket fails, and wait for a reply. -/
theorem ProtocolSend_not_connected (e : EventSocket) (command args name uuid : Str)
    (Lock : Bool) (loop : Int) (asyn : Bool) :
    (e.conn = none →
      e.ProtocolSend command args = (.err .notConnected, e) ∧
      e.ProtocolSendMsg name args uuid Lock loop asyn = (.err .notConnected, e) ∧
      (Reply.err Error.notConnected).event = none) ∧
    e.Disconnect.Connected = e.Connected ∧
    (∀ c, e.conn = some c → c.closed = true →
      e.Connected = true ∧
      (∀ er, (e.ProtocolSend command args).1 ≠ .err er) ∧
      (∀ er, (e.ProtocolSendMsg name args uuid Lock loop asyn).1 ≠ .err er) ∧
      (e.ProtocolSend command args).2.conn = some c ∧
      (e.ProtocolSendMsg name args uuid Lock loop asyn).2.conn = some c) := by
  refine ⟨?_, ?_, ?_⟩
  · intro h
    refine ⟨?_, ?_, rfl⟩
    · simp [EventSocket.ProtocolSend, EventSocket.Connected, h]
    · simp [EventSocket.ProtocolSendMsg, EventSocket.Connected, h]
  · simp only [EventSocket.Connected, Disconnect_conn_isSome]
  · intro c hc hclosed
    refine ⟨by simp [EventSocket.Connected, hc], ?_, ?_, ?_, ?_⟩
    · intro er
      simp only [EventSocket.ProtocolSend, EventSocket.Connected, hc, Option.isSome_some,
        not_true_eq_false, if_false]
      exact await_ne_err _ _ _
    · intro er
      simp only [EventSocket.ProtocolSendMsg, EventSocket.Connected, hc, Option.isSome_some,
        not_true_eq_false, if_false]
      exact await_ne_err _ _ _
    · rw [ProtocolSend_conn, hc, Option.map_some', Conn.write_of_closed _ _ hclosed]
    · rw [ProtocolSendMsg_conn, hc, Option.map_some', Conn.write_of_closed _ _ hclosed]

/-- C16 (witness): the theorem applied to the session of the counterexample, whose
socket `Disconnect` has closed: `ProtocolSend` returns no error and the connection is
as before. -/
theorem ProtocolSend_not_connected_witness :
    exDisconnected.conn = some ⟨[], [], true⟩ ∧
    exDisconnected.Connected = true ∧
    (∀ er, (exDisconnected.ProtocolSend "api".toList "status".toList).1 ≠ .err er) ∧
    (exDisconnected.ProtocolSend "api".toList "status".toList).2.conn = some ⟨[], [], true⟩ :=
  ⟨by decide,
    ((ProtocolSend_not_connected exDisconnected "api".toList "status".toList "answer".toList
      "u1".toList true 0 false).2.2 ⟨[], [], true⟩ (by decide) rfl).1,
    ((ProtocolSend_not_connected exDisconnected "api".toList "status".toList "answer".toList
      "u1".toList true 0 false).2.2 ⟨[], [], true⟩ (by decide) rfl).2.1,
    ((ProtocolSend_not_connected exDisconnected "api".toList "status".toList "answer".toList
      "u1".toList true 0 false).2.2 ⟨[], [], true⟩ (by decide) rfl).2.2.2.1⟩

/-! ## The loop of `OutboundSocket.Start` -/

/-- C17 (behaviour of the code): on a session whose reader offers `io.EOF`, `readEvent`
returns that error; the body of the loop of `OutboundSocket.Start` then calls
`Disconnect`, which closes the socket, and goes on to `go self.dispatchEvent(ev)` with
the nil event, which panics; the body has no `return`, so the loop would read again.
In general, whenever `readEvent` returns an error the nil event is dispatched and the
loop does not stop.  The loop of `InboundSocket.Start` dispatches only events. -/
theorem Start_dispatches_nil_after_error :
    (exClosedByPeer.readEvent false).1 = .err .eof ∧
    (startIteration exClosedByPeer false).disconnected = true ∧
    (startIteration exClosedByPeer false).sock.conn.map Conn.closed = some true ∧
    (startIteration exClosedByPeer false).dispatched = some none ∧
    (startIteration exClosedByPeer false).started = none ∧
    (startIteration exClosedByPeer false).readsAgain = true ∧
    inboundIterationDispatch exClosedByPeer false = none ∧
    (∀ (e : EventSocket) (preferErr : Bool) (er : Error),
      (e.readEvent preferErr).1 = .err er →
      (startIteration e preferErr).disconnected = true ∧
      (startIteration e preferErr).dispatched = some none ∧
      (startIteration e preferErr).started = none ∧
      (startIteration e preferErr).readsAgain = true) := by
  refine ⟨by decide, by decide, by decide, by decide, by decide, by decide, by decide, ?_⟩
  intro e preferErr er h
  unfold startIteration
  generalize e.readEvent preferErr = p at h
  obtain ⟨r, e1⟩ := p
  simp only at h
  subst h
  simp [ReadEvent.error, ReadEvent.event, EventSocket.dispatchEvent]

/-! ## `GetContentLength` -/

/-- C18: `GetContentLength` returns the integer value of the header `Content-Length`
when the header is present and `strconv.Atoi` accepts it, and 0 when the header is
absent, empty, or not accepted. -/
theorem GetContentLength_value (ev : Event) :
    (∀ v n, mapGet? ev.Header "Content-Length".toList = some v → Atoi v = .ok n →
      ev.GetContentLength = n) ∧
    (mapGet? ev.Header "Content-Length".toList = none → ev.GetContentLength = 0) ∧
    (mapGet? ev.Header "Content-Length".toList = some [] → ev.GetContentLength = 0) ∧
    (∀ v e, mapGet? ev.Header "Content-Length".toList = some v → Atoi v = .error e →
      ev.GetContentLength = 0) := by
  have h0 : Atoi "0".toList = .ok 0 := by decide
  refine ⟨?_, ?_, ?_, ?_⟩
  · intro v n hv hn
    have hne := Atoi_ne_nil v n hn
    simp only [Event.GetContentLength, Event.GetHeader, mapGet, hv, Option.getD_some, hne,
      ne_eq, not_false_eq_true, if_true, hn]
  · intro hv
    simp only [Event.GetContentLength, Event.GetHeader, mapGet, hv, Option.getD_none,
      ne_eq, not_true_eq_false, if_false, h0]
  · intro hv
    simp only [Event.GetContentLength, Event.GetHeader, mapGet, hv, Option.getD_some,
      ne_eq, not_true_eq_false, if_false, h0]
  · intro v e hv he
    by_cases hne : v = []
    · subst hne
      simp only [Event.GetContentLength, Event.GetHeader, mapGet, hv, Option.getD_some,
        ne_eq, not_true_eq_false, if_false, h0]
    · simp only [Event.GetContentLength, Event.GetHeader, mapGet, hv, Option.getD_some, hne,
        ne_eq, not_false_eq_true, if_true, he]

/-- C18 (witness): an event with `Content-Length: 42` has the content length 42. -/
theorem GetContentLength_value_witness :
    mapGet? exLengthEvent.Header "Content-Length".toList = some "42".toList ∧
    Atoi "42".toList = .ok 42 ∧ exLengthEvent.GetContentLength = 42 :=
  ⟨by decide, by decide,
    (GetContentLength_value exLengthEvent).1 "42".toList 42 (by decide) (by decide)⟩

/-! ## The play-string of `PlayAndGetDigits` -/

/-- C19 (behaviour of the code): for the single sound file `a.wav` without beep the
play-string is `file_string://silence_stream://1file_string://silence_stream://1!a.wav`,
the prefix twice, and not `file_string://silence_stream://1!a.wav`: each pass of the
loop appends the string built so far to itself before `!` and the file.  It is the
sixth of the arguments sent with `play_and_get_digits`.  For an empty list the
play-string is the tone with `playBeep` and `silence_stream://10` without. -/
theorem playString_repeats_accumulator :
    playString false ["a.wav".toList]
      = "file_string://silence_stream://1file_string://silence_stream://1!a.wav".toList ∧
    playString false ["a.wav".toList] ≠ "file_string://silence_stream://1!a.wav".toList ∧
    playAndGetDigitsArgs 1 4 3 5000 "#".toList [] "pin".toList [] "3000".toList false
        ["a.wav".toList]
      = ("%!s(int=1) %!s(int=4) %!s(int=3) %!s(int=5000) ".toList ++ [Char.ofNat 39, '#',
          Char.ofNat 39, ' '] ++ playString false ["a.wav".toList]
          ++ " silence_stream://150 pin (d+) 3000".toList) ∧
    (∀ (f : Str) (playBeep : Bool),
      playString playBeep [f] =
        if playBeep then
          "file_string://silence_stream://1file_string://silence_stream://1!".toList ++ f
            ++ ("file_string://silence_stream://1file_string://silence_stream://1!".toList
              ++ f ++ "!tone_stream://%(300,200,700)".toList)
        else "file_string://silence_stream://1file_string://silence_stream://1!".toList ++ f) ∧
    playString true [] = "tone_stream://%(300,200,700)".toList ∧
    playString false [] = "silence_stream://10".toList := by
  refine ⟨by decide, by decide, by decide, ?_, by decide, by decide⟩
  intro f playBeep
  cases playBeep <;> simp [playString, playStrLoop]

/-! ## The events that `readOne` fills with `copyHeaders` -/

theorem readOne_header_error (input : Str) (hdr : MIMEHeader) (e : Error) (rest : Str)
    (hh : ReadMIMEHeader input = (hdr, some e, rest)) :
    readOne input = (.failed e, rest) := by
  simp only [readOne, hh]

theorem readOne_content_error (input : Str) (hdr : MIMEHeader) (e : Error) (rest : Str)
    (hh : ReadMIMEHeader input = (hdr, none, rest)) (hb : readContent hdr rest = .err e) :
    readOne input = (.failed e, rest) := by
  simp only [readOne, hh, hb]

theorem readOne_content_panic (input : Str) (hdr : MIMEHeader) (rest : Str)
    (hh : ReadMIMEHeader input = (hdr, none, rest)) (hb : readContent hdr rest = .panic) :
    readOne input = (.panicked, rest) := by
  simp only [readOne, hh, hb]

theorem readEventPlain_published (body : Str) (c : Chan) (ev : Event)
    (hp : (readEventPlain body).published = some (c, ev)) :
    ∃ (rd ib rest' : Str),
      readContent (ReadMIMEHeader body).1 rd = .ok ib rest' ∧
      ev = copyHeaders (ReadMIMEHeader body).1 ⟨[], ib⟩ true := by
  rcases hR : ReadMIMEHeader body with ⟨ih, oerr, ird⟩
  cases oerr with
  | some e =>
    rw [readEventPlain_header_error body ih e ird hR] at hp
    cases hp
  | none =>
    cases hb : readContent ih ird with
    | err e =>
      simp only [readEventPlain, hR, hb] at hp
      cases hp
    | panic =>
      simp only [readEventPlain, hR, hb] at hp
      cases hp
    | ok ib ir =>
      rw [readEventPlain_ok body ih ird ib ir hR hb] at hp
      simp only [Outcome.published, Option.some.injEq, Prod.mk.injEq] at hp
      exact ⟨ird, ib, ir, hb, hp.2.symm⟩

/-- Every event that `readOne` sends for a message that is not `text/event-json` was
filled by `copyHeaders` from a header block that `ReadMIMEHeader` returned, with the
body that was read after that block. -/
theorem readOne_published_copy (input : Str)
    (hct : (ReadMIMEHeader input).1.Get "Content-Type".toList ≠ "text/event-json".toList)
    (c : Chan) (ev : Event) (hp : (readOne input).1.published = some (c, ev)) :
    ∃ (s rd body rest' : Str) (decode : Bool),
      readContent (ReadMIMEHeader s).1 rd = .ok body rest' ∧
      ev = copyHeaders (ReadMIMEHeader s).1 ⟨[], body⟩ decode := by
  rcases hR : ReadMIMEHeader input with ⟨hdr, oerr, rest⟩
  have hhdr : (ReadMIMEHeader input).1 = hdr := by rw [hR]
  rw [hhdr] at hct
  cases oerr with
  | some e =>
    rw [readOne_header_error input hdr e rest hR] at hp
    cases hp
  | none =>
    cases hb : readContent hdr rest with
    | err e =>
      rw [readOne_content_error input hdr e rest hR hb] at hp
      cases hp
    | panic =>
      rw [readOne_content_panic input hdr rest hR hb] at hp
      cases hp
    | ok body rest' =>
      have fin : ∀ decode, ev = copyHeaders hdr ⟨[], body⟩ decode →
          ∃ (s rd body rest' : Str) (decode : Bool),
            readContent (ReadMIMEHeader s).1 rd = .ok body rest' ∧
            ev = copyHeaders (ReadMIMEHeader s).1 ⟨[], body⟩ decode := by
        intro decode h
        exact ⟨input, rest, body, rest', decode, by rw [hhdr]; exact hb, by rw [hhdr]; exact h⟩
      by_cases h1 : hdr.Get "Content-Type".toList = "command/reply".toList
      · cases hr : hdr.Get "Reply-Text".toList with
        | nil =>
          rw [readOne_cmd_without_reply_text input hdr rest body rest' hR hb h1 hr] at hp
          cases hp
        | cons ch r =>
          rw [readOne_cmd input hdr rest body rest' ch r hR hb h1 hr] at hp
          simp only [Outcome.published, Option.some.injEq, Prod.mk.injEq] at hp
          exact fin _ hp.2.symm
      by_cases h2 : hdr.Get "Content-Type".toList = "api/response".toList
      · rw [readOne_api input hdr rest body rest' hR hb h2] at hp
        simp only [Outcome.published, Option.some.injEq, Prod.mk.injEq] at hp
        exact fin _ hp.2.symm
      by_cases h3 : hdr.Get "Content-Type".toList = "auth/request".toList
      · rw [readOne_auth input hdr rest body rest' hR hb h3] at hp
        simp only [Outcome.published, Option.some.injEq, Prod.mk.injEq] at hp
        exact fin _ hp.2.symm
      by_cases h4 : hdr.Get "Content-Type".toList = "text/event-plain".toList
      · rw [readOne_plain input hdr rest body rest' hR hb h4] at hp
        obtain ⟨rd, ib, ir, hib, hev⟩ := readEventPlain_published body c ev hp
        exact ⟨body, rd, ib, ir, true, hib, hev⟩
      by_cases h6 : hdr.Get "Content-Type".toList = "text/disconnect-notice".toList
      · rw [readOne_disconnect input hdr rest body rest' hR hb h6] at hp
        simp only [Outcome.published, Option.some.injEq, Prod.mk.injEq] at hp
        exact fin _ hp.2.symm
      · rw [readOne_other input hdr rest body rest' hR hb (by
          simp only [List.mem_cons, List.mem_singleton, not_or, List.not_mem_nil, or_false]
          exact ⟨h1, h2, h3, h4, hct, h6⟩)] at hp
        simp only [Outcome.published, Option.some.injEq, Prod.mk.injEq] at hp
        exact fin _ hp.2.symm

/-! ## `Content-Length` and the body -/

theorem QueryUnescape_cons_plain (c : Char) (s : Str) (h1 : ¬ c = '%') (h2 : ¬ c = '+') :
    QueryUnescape (c :: s) = (QueryUnescape s).map (fun t => c :: t) := by
  cases s with
  | nil => simp [QueryUnescape, h1, h2]
  | cons a s' =>
    cases s' with
    | nil => simp [QueryUnescape, h1, h2]
    | cons b r => rw [QueryUnescape]; simp [h1, h2]

theorem QueryUnescape_cons_plus (s : Str) :
    QueryUnescape ('+' :: s) = (QueryUnescape s).map (fun t => ' ' :: t) := by
  cases s with
  | nil => simp [QueryUnescape]
  | cons a s' =>
    cases s' with
    | nil => simp [QueryUnescape]
    | cons b r => rw [QueryUnescape]; simp

theorem QueryUnescape_digits (ds : Str) (h : ds.all isDigit = true) :
    QueryUnescape ds = some ds := by
  induction ds with
  | nil => rfl
  | cons c s ih =>
    simp only [List.all_cons, Bool.and_eq_true] at h
    have h1 : ¬ c = '%' := by
      intro hc; subst hc; exact absurd h.1 (by decide)
    have h2 : ¬ c = '+' := by
      intro hc; subst hc; exact absurd h.1 (by decide)
    rw [QueryUnescape_cons_plain c s h1 h2, ih h.2, Option.map_some']

theorem Atoi_space (t : Str) (n : Int) : Atoi (' ' :: t) ≠ .ok n := by
  unfold Atoi
  simp [isDigit]

theorem Atoi_minus_digits (t : Str) (m : Int) (hv : Atoi ('-' :: t) = .ok m) :
    t.all isDigit = true := by
  unfold Atoi at hv
  simp only [List.head?_cons, true_or, if_true, List.tail_cons] at hv
  split at hv
  · cases hv
  · rename_i hc
    simp only [not_or, not_not] at hc
    exact hc.2

theorem Atoi_plain_digits (c : Char) (t : Str) (m : Int) (h1 : ¬ c = '+') (h2 : ¬ c = '-')
    (hv : Atoi (c :: t) = .ok m) : (c :: t).all isDigit = true := by
  unfold Atoi at hv
  have e1 : ¬ ((c :: t).head? = some '-' ∨ (c :: t).head? = some '+') := by
    simp [h1, h2]
  simp only [e1, if_false] at hv
  split at hv
  · cases hv
  · rename_i hc
    simp only [not_or, not_not] at hc
    exact hc.2
theorem Atoi_headerValue (v : Str) (m n : Int) (decode : Bool) (hv : Atoi v = .ok m)
    (hw : Atoi (headerValue decode v) = .ok n) : n = m := by
  cases decode with
  | false =>
    change Atoi v = .ok n at hw
    rw [hv] at hw
    cases hw
    rfl
  | true =>
    rw [headerValue_true] at hw
    have hsame : QueryUnescape v = some v → n = m := by
      intro hu
      rw [hu, Option.getD_some, hv] at hw
      cases hw
      rfl
    cases v with
    | nil => exact absurd rfl (Atoi_ne_nil _ _ hv)
    | cons c t =>
      by_cases hplus : c = '+'
      · subst hplus
        rw [QueryUnescape_cons_plus] at hw
        cases hqt : QueryUnescape t with
        | none =>
          rw [hqt, Option.map_none', Option.getD_none, hv] at hw
          cases hw
          rfl
        | some u =>
          rw [hqt, Option.map_some', Option.getD_some] at hw
          exact absurd hw (Atoi_space u n)
      · by_cases hminus : c = '-'
        · subst hminus
          have hd := Atoi_minus_digits t m hv
          apply hsame
          rw [QueryUnescape_cons_plain _ _ (by decide) (by decide), QueryUnescape_digits t hd,
            Option.map_some']
        · exact hsame (QueryUnescape_digits _ (Atoi_plain_digits c t m hplus hminus hv))

theorem readContent_length (hdr : MIMEHeader) (rd body rest' : Str)
    (hb : readContent hdr rd = .ok body rest') :
    (hdr.Get "Content-Length".toList = [] ∧ body = []) ∨
    Atoi (hdr.Get "Content-Length".toList) = .ok (body.length : Int) := by
  unfold readContent at hb
  by_cases hne : hdr.Get "Content-Length".toList = []
  · simp only [hne, ne_eq, not_true_eq_false, if_false, BodyRead.ok.injEq] at hb
    exact Or.inl ⟨hne, hb.1.symm⟩
  · right
    simp only [hne, ne_eq, not_false_eq_true, if_true, readBody] at hb
    cases ha : Atoi (hdr.Get "Content-Length".toList) with
    | error e => simp only [ha] at hb; cases hb
    | ok len =>
      simp only [ha] at hb
      by_cases hneg : len < 0
      · simp only [hneg, if_true] at hb; cases hb
      · simp only [hneg, if_false, ReadFull] at hb
        by_cases hle : len.toNat ≤ rd.length
        · simp only [hle, if_true, BodyRead.ok.injEq] at hb
          have hl : body.length = len.toNat := by
            rw [← hb.1, List.length_take]
            omega
          rw [hl]
          congr 1
          omega
        · simp only [hle, if_false] at hb
          by_cases hrd : rd = [] <;> simp only [hrd, if_true, if_false] at hb <;> cases hb

theorem copyHeaders_content_length (s rd body rest' : Str) (decode : Bool)
    (hb : readContent (ReadMIMEHeader s).1 rd = .ok body rest') (w : Str) (n : Int)
    (hw : mapGet? (copyHeaders (ReadMIMEHeader s).1 ⟨[], body⟩ decode).Header
      "Content-Length".toList = some w)
    (hn : Atoi w = .ok n) : n = body.length := by
  rw [copyHeaders_lookup] at hw
  cases hl : mimeLookup (ReadMIMEHeader s).1 "Content-Length".toList with
  | none => rw [hl] at hw; cases hw
  | some p =>
    obtain ⟨v, vs⟩ := p
    rw [hl, Option.map_some', Option.some.injEq] at hw
    have hget : (ReadMIMEHeader s).1.Get "Content-Length".toList = v := by
      have hcanon : CanonicalMIMEHeaderKey "Content-Length".toList = "Content-Length".toList := by
        decide
      simp only [MIMEHeader.Get, hcanon, hl]
    rcases readContent_length _ _ _ _ hb with ⟨h0, _⟩ | h1
    · rw [hget] at h0
      subst h0
      have hz : headerValue decode [] = [] := by cases decode <;> rfl
      simp only [hz] at hw
      subst hw
      exact absurd rfl (Atoi_ne_nil _ _ hn)
    · rw [hget] at h1
      rw [← hw] at hn
      exact Atoi_headerValue v _ n decode h1 hn

/-- C14 (counterexample): the `text/event-json` message whose body is
`{"Content-Length":"5","_body":"ab"}` gives, on `evt`, an event with the header
`Content-Length: 5` and the body `ab` of two bytes. -/
theorem readOne_json_content_length_differs :
    (readOne exJsonLength).1
      = .sent .evt ⟨[("Content-Length".toList, "5".toList)], "ab".toList⟩ true ∧
    Atoi "5".toList = .ok 5 ∧ "ab".toList.length = 2 := by
  decide

/-- C14 (amended): for every event that `readOne` sends for a message whose content
type is not `text/event-json`, on whatever channel, if the event has a header
`Content-Length` whose value is a number, that number is the byte length of the
event's body. -/
theorem readOne_content_length_is_body_length (input : Str)
    (hct : (ReadMIMEHeader input).1.Get "Content-Type".toList ≠ "text/event-json".toList)
    (c : Chan) (ev : Event) (hp : (readOne input).1.published = some (c, ev))
    (w : Str) (n : Int) (hw : mapGet? ev.Header "Content-Length".toList = some w)
    (hn : Atoi w = .ok n) :
    n = ev.Body.length := by
  obtain ⟨s, rd, body, rest', decode, hb, hev⟩ := readOne_published_copy input hct c ev hp
  subst hev
  rw [copyHeaders_body]
  exact copyHeaders_content_length s rd body rest' decode hb w n hw hn

/-- C14 (witness): the frame with the inner header `Content-Length: 2` and the inner
body `HI` gives an event whose body has two bytes. -/
theorem readOne_content_length_is_body_length_witness :
    (readOne exHeartbeatFrame).1.published
      = some (.evt, ⟨[("Event-Name".toList, "HEARTBEAT".toList),
          ("Uptime-Msec".toList, "12345".toList), ("Content-Length".toList, "2".toList)],
          "HI".toList⟩) ∧
    (2 : Int) = (("HI".toList : Str).length : Int) :=
  ⟨by decide,
    readOne_content_length_is_body_length exHeartbeatFrame (by decide) .evt
      ⟨[("Event-Name".toList, "HEARTBEAT".toList),
          ("Uptime-Msec".toList, "12345".toList), ("Content-Length".toList, "2".toList)],
          "HI".toList⟩ (by decide) "2".toList 2 (by decide) (by decide)⟩

/-! ## Header names -/

theorem toNat_ofNat_small (m : Nat) (h : m < 55296) : (Char.ofNat m).toNat = m := by
  have hv : m.isValidChar := Or.inl h
  simp only [Char.ofNat, hv, dite_true]
  rfl

theorem toUpper_toUpper (c : Char) : c.toUpper.toUpper = c.toUpper := by
  by_cases h : c.toNat ≥ 97 ∧ c.toNat ≤ 122
  · have h1 : c.toUpper = Char.ofNat (c.toNat - 32) := by
      simp only [Char.toUpper, h, and_self, if_true]
    have h2 : (Char.ofNat (c.toNat - 32)).toNat = c.toNat - 32 :=
      toNat_ofNat_small _ (by omega)
    rw [h1]
    have h3 : ¬ ((Char.ofNat (c.toNat - 32)).toNat ≥ 97
        ∧ (Char.ofNat (c.toNat - 32)).toNat ≤ 122) := by
      rw [h2]; omega
    simp only [Char.toUpper, h3, if_false]
  · have h1 : c.toUpper = c := by simp only [Char.toUpper, h, if_false]
    rw [h1, h1]

theorem toLower_toLower (c : Char) : c.toLower.toLower = c.toLower := by
  by_cases h : c.toNat ≥ 65 ∧ c.toNat ≤ 90
  · have h1 : c.toLower = Char.ofNat (c.toNat + 32) := by
      simp only [Char.toLower, h, and_self, if_true]
    have h2 : (Char.ofNat (c.toNat + 32)).toNat = c.toNat + 32 :=
      toNat_ofNat_small _ (by omega)
    rw [h1]
    have h3 : ¬ ((Char.ofNat (c.toNat + 32)).toNat ≥ 65
        ∧ (Char.ofNat (c.toNat + 32)).toNat ≤ 90) := by
      rw [h2]; omega
    simp only [Char.toLower, h3, if_false]
  · have h1 : c.toLower = c := by simp only [Char.toLower, h, if_false]
    rw [h1, h1]

theorem canonLoop_canonLoop (upper : Bool) (s : Str) :
    canonLoop upper (canonLoop upper s) = canonLoop upper s := by
  induction s generalizing upper with
  | nil => rfl
  | cons c s ih =>
    cases upper with
    | true =>
      simp only [canonLoop, if_true, toUpper_toUpper, ih]
    | false =>
      simp only [canonLoop, Bool.false_eq_true, if_false, toLower_toLower, ih]

/-- Putting a key in canonical form twice is the same as doing it once. -/
theorem CanonicalMIMEHeaderKey_idem (k : Str) :
    CanonicalMIMEHeaderKey (CanonicalMIMEHeaderKey k) = CanonicalMIMEHeaderKey k := by
  by_cases hv : k.all validHeaderFieldByte = true
  · have h1 : CanonicalMIMEHeaderKey k = canonLoop true k := by
      simp only [CanonicalMIMEHeaderKey, hv, if_true]
    rw [h1]
    unfold CanonicalMIMEHeaderKey
    split
    · exact canonLoop_canonLoop true k
    · rfl
  · have h1 : CanonicalMIMEHeaderKey k = k := by
      simp only [CanonicalMIMEHeaderKey, hv, Bool.false_eq_true, if_false]
    rw [h1, h1]

theorem mimeAdd_keys_mem (m : MIMEHeader) (k v key : Str)
    (h : key ∈ (mimeAdd m k v).map Prod.fst) : key ∈ m.map Prod.fst ∨ key = k := by
  rw [mimeAdd_keys] at h
  split at h
  · exact Or.inl h
  · rcases List.mem_append.mp h with h | h
    · exact Or.inl h
    · exact Or.inr (List.mem_singleton.mp h)

theorem readMIMEHeaderLoop_keys_canonical (fuel : Nat) (m : MIMEHeader) (s : Str)
    (h : ∀ key ∈ m.map Prod.fst, CanonicalMIMEHeaderKey key = key) :
    ∀ key ∈ (readMIMEHeaderLoop fuel m s).1.map Prod.fst, CanonicalMIMEHeaderKey key = key := by
  induction fuel generalizing m s with
  | zero => simpa [readMIMEHeaderLoop] using h
  | succ n ih =>
    rw [readMIMEHeaderLoop]
    split
    · exact h
    · split
      · exact h
      · split
        · exact h
        · dsimp only
          split
          · exact h
          · rename_i key0 hkey
            split
            · exact h
            · split
              · exact ih _ _ h
              · apply ih
                intro key hmem
                rcases mimeAdd_keys_mem _ _ _ _ hmem with h1 | h1
                · exact h key h1
                · subst h1
                  unfold canonicalKeyOnRead at hkey
                  split at hkey
                  · simp only [Option.some.injEq] at hkey
                    rw [← hkey]
                    exact CanonicalMIMEHeaderKey_idem _
                  · cases hkey

/-- Every name of a header returned by `ReadMIMEHeader` is in canonical form. -/
theorem ReadMIMEHeader_keys_canonical (s : Str) :
    ∀ key ∈ (ReadMIMEHeader s).1.map Prod.fst, CanonicalMIMEHeaderKey key = key := by
  unfold ReadMIMEHeader
  split
  · split
    · simp
    · exact readMIMEHeaderLoop_keys_canonical _ _ _ (by simp)
  · exact readMIMEHeaderLoop_keys_canonical _ _ _ (by simp)

/-- C15 (counterexample): the frame with the inner header line `Uptime-msec: 12345`
gives an event that has no header `Uptime-msec`; the value is stored under
`Uptime-Msec`. -/
theorem readOne_changes_header_name_case :
    (∃ ev, (readOne exHeartbeatFrame).1.published = some (.evt, ev) ∧
      mapGet? ev.Header "Uptime-msec".toList = none ∧
      ev.GetHeader "Uptime-msec".toList "absent".toList = "absent".toList ∧
      mapGet? ev.Header "Uptime-Msec".toList = some "12345".toList) ∧
    CanonicalMIMEHeaderKey "Uptime-msec".toList = "Uptime-Msec".toList :=
  ⟨⟨⟨[("Event-Name".toList, "HEARTBEAT".toList), ("Uptime-Msec".toList, "12345".toList),
      ("Content-Length".toList, "2".toList)], "HI".toList⟩,
    by decide, by decide, by decide, by decide⟩, by decide⟩

/-- C15 (amended): for every message that `readOne` routes through `copyHeaders`
(every content type but `text/event-json`), each header name of the event sent is in
the canonical form of `textproto.CanonicalMIMEHeaderKey`, which for a name of token
characters has its first letter and every letter after a hyphen in upper case and all
other letters in lower case.  Lookup compares names byte for byte: a name that is not
in canonical form finds no header, and `GetHeader` returns the default for it. -/
theorem readOne_header_names_canonical (input : Str)
    (hct : (ReadMIMEHeader input).1.Get "Content-Type".toList ≠ "text/event-json".toList)
    (c : Chan) (ev : Event) (hp : (readOne input).1.published = some (c, ev)) :
    (∀ k, mapGet? ev.Header k ≠ none → CanonicalMIMEHeaderKey k = k) ∧
    (∀ k d, CanonicalMIMEHeaderKey k ≠ k →
      mapGet? ev.Header k = none ∧ ev.GetHeader k d = d) := by
  obtain ⟨s, rd, body, rest', decode, _, hev⟩ := readOne_published_copy input hct c ev hp
  have key : ∀ k, mapGet? ev.Header k ≠ none → CanonicalMIMEHeaderKey k = k := by
    intro k hk
    rw [hev, copyHeaders_lookup] at hk
    have hmem : k ∈ (ReadMIMEHeader s).1.map Prod.fst := by
      by_contra hno
      rw [(mimeLookup_eq_none_iff _ _).mpr hno] at hk
      exact hk rfl
    exact ReadMIMEHeader_keys_canonical s k hmem
  refine ⟨key, ?_⟩
  intro k d hk
  have hnone : mapGet? ev.Header k = none := by
    by_contra hne
    exact hk (key k hne)
  refine ⟨hnone, ?_⟩
  simp only [Event.GetHeader, mapGet, hnone, Option.getD_none, ne_eq, not_true_eq_false,
    if_false]

/-- C15 (witness): in the event of the frame with the inner header line
`Uptime-msec: 12345`, the names `Uptime-Msec` and `Event-Name` are present and in
canonical form, and the spelling `Uptime-msec` finds nothing. -/
theorem readOne_header_names_canonical_witness :
    (readOne exHeartbeatFrame).1.published
      = some (.evt, ⟨[("Event-Name".toList, "HEARTBEAT".toList),
          ("Uptime-Msec".toList, "12345".toList), ("Content-Length".toList, "2".toList)],
          "HI".toList⟩) ∧
    CanonicalMIMEHeaderKey "Uptime-Msec".toList = "Uptime-Msec".toList ∧
    mapGet? [("Event-Name".toList, "HEARTBEAT".toList),
          ("Uptime-Msec".toList, "12345".toList), ("Content-Length".toList, "2".toList)]
        "Uptime-msec".toList = none :=
  ⟨by decide,
    (readOne_header_names_canonical exHeartbeatFrame (by decide) .evt
      ⟨[("Event-Name".toList, "HEARTBEAT".toList),
          ("Uptime-Msec".toList, "12345".toList), ("Content-Length".toList, "2".toList)],
          "HI".toList⟩ (by decide)).1 "Uptime-Msec".toList (by decide),
    ((readOne_header_names_canonical exHeartbeatFrame (by decide) .evt
      ⟨[("Event-Name".toList, "HEARTBEAT".toList),
          ("Uptime-Msec".toList, "12345".toList), ("Content-Length".toList, "2".toList)],
          "HI".toList⟩ (by decide)).2 "Uptime-msec".toList [] (by decide)).1⟩

end FsSwitch
